import Mathlib

/-!
# Fauxtoshop: pixel filters over a grid of packed colours

A shallow embedding of the filter code of `fauxtoshop.cpp`:

* `colourDifference`   (lines 198-210)
* `isEdge`             (lines 178-191) and the loop of `applyEdgeDetection` (158-171)
* `getRandomScatterPixel` (142-150) and the loop of `applyScatter` (122-135)
* the overlay loop of `applyGreenScreen` (227-240)
* `compareImage`       (280-292)

C++ `int` values are mathematical integers (`Int`).  The sums
`stickerRow + row` and `stickerCol + col` of the overlay loop, whose first
operand is any `int` the user types, are wrapped to 32 bits (`wrapInt32`).
The other sums stay far from the 32-bit limits: channel differences lie in
`[-255, 255]`, `isEdge` adds or subtracts 1 to an index of the grid, and the
scatter radius comes from a prompt that accepts `[1, 100]` only.  Console
prompts, file dialogs and the window are left out: every filter is a function
of the grids and parameters the prompts deliver.  Operations of the `Grid`
library that raise an error on a bad index return `Option`; the unbounded loop
of `getRandomScatterPixel` takes a bound on its number of passes.
-/

set_option autoImplicit false

namespace Fauxtoshop

/-! ## Constants (`fauxtoshop-provided.cpp`, lines 29-31) -/

def WHITE : Int := 0xFFFFFF
def BLACK : Int := 0x000000
def GREEN : Int := 0x00FF00

/-! ## The grid library -/

/-- Modelled from the spec: the `Grid<int>` container (`grid.h`) is not part of
the sources at hand.  Section 3 describes it as `rows`, `cols` and a row-major
sequence of packed colours, one per cell. -/
structure Grid where
  numRows : Nat
  numCols : Nat
  cells : List Int
deriving DecidableEq, Repr

/-- Modelled from the spec: the data-model invariant of section 3,
`cells.length == rows * cols`; both dimensions fit a C++ `int`. -/
def Grid.valid (g : Grid) : Prop :=
  g.cells.length = g.numRows * g.numCols ∧ g.numRows < 2 ^ 31 ∧ g.numCols < 2 ^ 31

instance (g : Grid) : Decidable g.valid := by
  unfold Grid.valid; infer_instance

/-- Modelled from the spec: a packed colour is a 24-bit value, "unused high
byte zero" (section 3). -/
def isPixel (p : Int) : Prop := 0 ≤ p ∧ p < 2 ^ 24

instance (p : Int) : Decidable (isPixel p) := by
  unfold isPixel; infer_instance

/-- Modelled from the spec: every cell of the grid is a 24-bit packed colour. -/
def Grid.pixels (g : Grid) : Prop := ∀ p ∈ g.cells, isPixel p

instance (g : Grid) : Decidable g.pixels := by
  unfold Grid.pixels; infer_instance

/-- Modelled from the spec: `Grid(nRows, nCols)`, a grid of the given size
whose cells hold the default value `0`. -/
def Grid.new (nRows nCols : Nat) : Grid :=
  ⟨nRows, nCols, List.replicate (nRows * nCols) 0⟩

/-- Modelled from the spec: `inBounds(row, col)`, "coordinate accesses are
validated against `[0, rows) x [0, cols)`". -/
def Grid.inBounds (g : Grid) (row col : Int) : Bool :=
  decide (0 ≤ row) && decide (row < g.numRows) && decide (0 ≤ col) && decide (col < g.numCols)

/-- Row-major position of a cell. -/
def Grid.index (g : Grid) (row col : Int) : Nat :=
  row.toNat * g.numCols + col.toNat

/-- Modelled from the spec: reading `grid[row][col]`; an index outside the
bounds raises an error (`none`). -/
def Grid.get (g : Grid) (row col : Int) : Option Int :=
  if g.inBounds row col then g.cells[g.index row col]? else none

/-- Modelled from the spec: the assignment `grid[row][col] = value`; an index
outside the bounds raises an error (`none`). -/
def Grid.set (g : Grid) (row col : Int) (value : Int) : Option Grid :=
  if g.inBounds row col then
    some ⟨g.numRows, g.numCols, g.cells.set (g.index row col) value⟩
  else none

/-- Two grids of the same dimensions and the same number of cells. -/
def Grid.sameShape (a b : Grid) : Prop :=
  a.numRows = b.numRows ∧ a.numCols = b.numCols ∧ a.cells.length = b.cells.length

/-- A counting loop `for (int i = 0; i < n; i++) body(i)` over a state that the
body may fail to produce. -/
def forRange {α : Type} (n : Nat) (body : Nat → α → Option α) (init : α) : Option α :=
  match n with
  | 0 => some init
  | k + 1 =>
    match forRange k body init with
    | none => none
    | some a => body k a

/-! ## Colour metric -/

/-- Modelled from the spec: `GBufferedImage::getRedGreenBlue` splits a packed
colour into its red, green and blue channels, "each in `[0, 255]`": bits
16-23, 8-15 and 0-7. -/
def getRedGreenBlue (rgb : Int) : Int × Int × Int :=
  ((rgb / 65536) % 256, (rgb / 256) % 256, rgb % 256)

/-- The function `colourDifference` of `fauxtoshop.cpp`. -/
def colourDifference (pixel1 pixel2 : Int) : Int :=
  let (red1, green1, blue1) := getRedGreenBlue pixel1
  let (red2, green2, blue2) := getRedGreenBlue pixel2
  let redDiff := |red1 - red2|
  let greenDiff := |green1 - green2|
  let blueDiff := |blue1 - blue2|
  max (max redDiff greenDiff) blueDiff

/-- The red channel of a packed colour. -/
def redOf (p : Int) : Int := (getRedGreenBlue p).1
/-- The green channel of a packed colour. -/
def greenOf (p : Int) : Int := (getRedGreenBlue p).2.1
/-- The blue channel of a packed colour. -/
def blueOf (p : Int) : Int := (getRedGreenBlue p).2.2

/-- The spec's `difference(a, b)`: `max(|r_a - r_b|, |g_a - g_b|, |b_a - b_b|)`,
the Chebyshev distance across the three channels. -/
def chebyshev (a b : Int) : Int :=
  max |redOf a - redOf b| (max |greenOf a - greenOf b| |blueOf a - blueOf b|)

/-! ## Edge detection -/

/-- The inner loop of `isEdge`: columns `j` of row `i`, returning early with
`true`; `none` is an index error. -/
def isEdgeCols (imgGrid : Grid) (originalPixel : Int) (i : Int) (threshold : Int) :
    List Int → Option Bool
  | [] => some false
  | j :: js =>
    if imgGrid.inBounds i j then
      match imgGrid.get i j with
      | none => none
      | some otherPixel =>
        if colourDifference originalPixel otherPixel > threshold then some true
        else isEdgeCols imgGrid originalPixel i threshold js
    else isEdgeCols imgGrid originalPixel i threshold js

/-- The outer loop of `isEdge`: rows `i`, each scanned over the columns
`col - 1 .. col + 1`. -/
def isEdgeRows (imgGrid : Grid) (originalPixel : Int) (col : Int) (threshold : Int) :
    List Int → Option Bool
  | [] => some false
  | i :: is =>
    match isEdgeCols imgGrid originalPixel i threshold [col - 1, col, col + 1] with
    | none => none
    | some true => some true
    | some false => isEdgeRows imgGrid originalPixel col threshold is

/-- The function `isEdge` of `fauxtoshop.cpp`. -/
def isEdge (imgGrid : Grid) (row col : Int) (threshold : Int) : Option Bool :=
  match imgGrid.get row col with
  | none => none
  | some originalPixel =>
    isEdgeRows imgGrid originalPixel col threshold [row - 1, row, row + 1]

/-- The two loops of `applyEdgeDetection`: `original` is the grid of the image
and `threshold` the value read from the prompt. -/
def applyEdgeDetection (original : Grid) (threshold : Int) : Option Grid :=
  forRange original.numRows (fun row result =>
    forRange original.numCols (fun col result =>
      match isEdge original row col threshold with
      | none => none
      | some edge => result.set row col (if edge then BLACK else WHITE)) result)
    (Grid.new original.numRows original.numCols)

/-- The edge test with the centre left out: the same clipped 3x3 scan as
`isEdge`, skipping `(i, j) = (row, col)`.  Inner loop. -/
def isEdgeSkipCentreCols (imgGrid : Grid) (originalPixel : Int) (row col : Int) (i : Int)
    (threshold : Int) : List Int → Option Bool
  | [] => some false
  | j :: js =>
    if imgGrid.inBounds i j && !(decide (i = row) && decide (j = col)) then
      match imgGrid.get i j with
      | none => none
      | some otherPixel =>
        if colourDifference originalPixel otherPixel > threshold then some true
        else isEdgeSkipCentreCols imgGrid originalPixel row col i threshold js
    else isEdgeSkipCentreCols imgGrid originalPixel row col i threshold js

/-- Outer loop of the edge test with the centre left out. -/
def isEdgeSkipCentreRows (imgGrid : Grid) (originalPixel : Int) (row col : Int)
    (threshold : Int) : List Int → Option Bool
  | [] => some false
  | i :: is =>
    match isEdgeSkipCentreCols imgGrid originalPixel row col i threshold
        [col - 1, col, col + 1] with
    | none => none
    | some true => some true
    | some false => isEdgeSkipCentreRows imgGrid originalPixel row col threshold is

/-- The variant of `isEdge` the spec's design note asks about: the centre pixel
is not compared with itself. -/
def isEdgeSkipCentre (imgGrid : Grid) (row col : Int) (threshold : Int) : Option Bool :=
  match imgGrid.get row col with
  | none => none
  | some originalPixel =>
    isEdgeSkipCentreRows imgGrid originalPixel row col threshold [row - 1, row, row + 1]

/-! ## Scatter -/

/-- The function `getRandomScatterPixel` of `fauxtoshop.cpp`.  The library call
`randomInteger(low, high)` is a parameter that threads the state of the random
source.  `fuel` bounds the number of passes through `while (true)`: the result
is `none` when every one of `fuel` passes drew a cell outside the grid. -/
def getRandomScatterPixel {σ : Type} (randomInteger : σ → Int → Int → Int × σ)
    (imgGrid : Grid) (row col scatterRadius : Int) : Nat → σ → Option (Int × σ)
  | 0, _ => none
  | fuel + 1, s =>
    let randomRow := randomInteger s (row - scatterRadius) (row + scatterRadius)
    let randomCol := randomInteger randomRow.2 (col - scatterRadius) (col + scatterRadius)
    if imgGrid.inBounds randomRow.1 randomCol.1 then
      match imgGrid.get randomRow.1 randomCol.1 with
      | none => none
      | some pixel => some (pixel, randomCol.2)
    else
      getRandomScatterPixel randomInteger imgGrid row col scatterRadius fuel randomCol.2

/-- The two loops of `applyScatter`: `original` is the grid of the image,
`scatterRadius` the value read from the prompt, `fuel` the bound on the passes
of each call of `getRandomScatterPixel`. -/
def applyScatter {σ : Type} (randomInteger : σ → Int → Int → Int × σ)
    (original : Grid) (scatterRadius : Int) (fuel : Nat) (s : σ) : Option (Grid × σ) :=
  forRange original.numRows (fun row st =>
    forRange original.numCols (fun col st =>
      match getRandomScatterPixel randomInteger original row col scatterRadius fuel st.2 with
      | none => none
      | some drawn =>
        match st.1.set row col drawn.1 with
        | none => none
        | some result => some (result, drawn.2)) st)
    (Grid.new original.numRows original.numCols, s)

/-- The contract of the random source: `randomInteger(low, high)` returns a
value in `[low, high]`. -/
def InRange {σ : Type} (randomInteger : σ → Int → Int → Int × σ) : Prop :=
  ∀ s low high, low ≤ high →
    low ≤ (randomInteger s low high).1 ∧ (randomInteger s low high).1 ≤ high

/-- The pair of coordinates drawn by one pass of the loop of
`getRandomScatterPixel`, with the state of the random source after the pass. -/
def drawPair {σ : Type} (randomInteger : σ → Int → Int → Int × σ)
    (row col scatterRadius : Int) (s : σ) : (Int × Int) × σ :=
  let randomRow := randomInteger s (row - scatterRadius) (row + scatterRadius)
  let randomCol := randomInteger randomRow.2 (col - scatterRadius) (col + scatterRadius)
  ((randomRow.1, randomCol.1), randomCol.2)

/-- The state of the random source after `k` passes of the loop. -/
def stateAfter {σ : Type} (randomInteger : σ → Int → Int → Int × σ)
    (row col scatterRadius : Int) : Nat → σ → σ
  | 0, s => s
  | k + 1, s =>
    stateAfter randomInteger row col scatterRadius k
      (drawPair randomInteger row col scatterRadius s).2

/-- A random source that always answers `low`. -/
def lowSource (s : Unit) (low _high : Int) : Int × Unit := (low, s)

/-- A random source that counts its calls and answers `low + n mod (high - low + 1)`. -/
def cycleSource (n : Nat) (low high : Int) : Int × Nat :=
  (low + (n : Int) % (high - low + 1), n + 1)

/-! ## Green screen -/

/-- The value of a 32-bit signed `int` after an addition that may wrap. -/
def wrapInt32 (x : Int) : Int := (x + 2 ^ 31) % 2 ^ 32 - 2 ^ 31

/-- A value of the C++ type `int`. -/
def isInt32 (x : Int) : Prop := -2 ^ 31 ≤ x ∧ x < 2 ^ 31

instance (x : Int) : Decidable (isInt32 x) := by
  unfold isInt32; infer_instance

/-- The overlay loops of `applyGreenScreen`: `base` is the grid of the
background image (`result` starts as its copy), `stickerGrid` the grid of the
sticker image, `stickerRow`, `stickerCol` and `tolerance` the values read from
the prompts. -/
def applyGreenScreen (base stickerGrid : Grid) (stickerRow stickerCol tolerance : Int) :
    Option Grid :=
  forRange stickerGrid.numRows (fun row result =>
    forRange stickerGrid.numCols (fun col result =>
      if result.inBounds (wrapInt32 (stickerRow + row)) (wrapInt32 (stickerCol + col)) then
        match stickerGrid.get row col with
        | none => none
        | some stickerPixel =>
          if colourDifference stickerPixel GREEN > tolerance then
            result.set (wrapInt32 (stickerRow + row)) (wrapInt32 (stickerCol + col)) stickerPixel
          else some result
      else some result) result)
    base

/-! ## Image comparison -/

/-- The error kinds of the comparison (section 7 of the spec). -/
inductive DiffError where
  | dimensionMismatch
deriving DecidableEq, Repr

/-- Modelled from the spec: `GBufferedImage::countDiffPixels` is not part of
the sources at hand.  Section 4.5: the two grids must have identical
dimensions, "else: reports a dimension-mismatch error"; otherwise the result is
"the number of coordinate positions where `a[r][c] != b[r][c]`". -/
def countDiffPixels (a b : Grid) : Except DiffError Nat :=
  if a.numRows = b.numRows ∧ a.numCols = b.numCols then
    Except.ok (((List.range a.numRows).map (fun r =>
      ((List.range a.numCols).filter (fun c => a.get r c != b.get r c)).length)).sum)
  else Except.error DiffError.dimensionMismatch

/-- The number of differing cells over the overlap of two grids: the count a
comparison that silently truncated to the common rows and columns would give. -/
def overlapDiffCount (a b : Grid) : Nat :=
  ((List.range (min a.numRows b.numRows)).map (fun r =>
    ((List.range (min a.numCols b.numCols)).filter (fun c => a.get r c != b.get r c)).length)).sum

/-- The function `compareImage` of `fauxtoshop.cpp`: the count of
`countDiffPixels` and the line printed for it; an error raised by the library
call is not caught. -/
def compareImage (img otherImg : Grid) : Except DiffError (Nat × String) :=
  match countDiffPixels img otherImg with
  | Except.error e => Except.error e
  | Except.ok numDifferentPixels =>
    if numDifferentPixels = 0 then
      Except.ok (numDifferentPixels, "These images are the same!")
    else
      Except.ok (numDifferentPixels,
        "These images differ in " ++ toString numDifferentPixels ++ " pixel locations!")

/-! ## Predicates used in the statements -/

/-- Some in-bounds cell of the clipped 3x3 neighbourhood of `(row, col)` differs
from the centre by more than `threshold`. -/
def HasContrast (g : Grid) (row col threshold : Int) : Prop :=
  ∃ i j p q, |i - row| ≤ 1 ∧ |j - col| ≤ 1 ∧ g.inBounds i j = true ∧
    g.get row col = some p ∧ g.get i j = some q ∧ colourDifference p q > threshold

/-- The sticker cell that lands on base cell `(R, C)` is opaque with colour
`p` and has been visited once the overlay loops stand at row `i`, column `j`. -/
def Covers (stickerGrid : Grid) (stickerRow stickerCol tolerance : Int) (i j : Nat)
    (R C : Int) (p : Int) : Prop :=
  stickerGrid.inBounds (R - stickerRow) (C - stickerCol) = true ∧
    (R - stickerRow < i ∨ (R - stickerRow = i ∧ C - stickerCol < j)) ∧
    stickerGrid.get (R - stickerRow) (C - stickerCol) = some p ∧
    colourDifference p GREEN > tolerance

/-- From every state of the random source and for every cell of the grid, some
pass of the loop of `getRandomScatterPixel` draws an in-bounds pair. -/
def EventuallyAccepts {σ : Type} (randomInteger : σ → Int → Int → Int × σ) (g : Grid)
    (scatterRadius : Int) : Prop :=
  ∀ (s : σ) (r c : Nat), r < g.numRows → c < g.numCols →
    ∃ k, g.inBounds
      (drawPair randomInteger r c scatterRadius (stateAfter randomInteger r c scatterRadius k s)).1.1
      (drawPair randomInteger r c scatterRadius (stateAfter randomInteger r c scatterRadius k s)).1.2
        = true

/-- A random source that always answers the middle of the interval. -/
def midSource (s : Unit) (low high : Int) : Int × Unit := ((low + high) / 2, s)

/-! ## Colour metric: basic facts -/

theorem channel_bounds (p : Int) :
    (0 ≤ redOf p ∧ redOf p ≤ 255) ∧ (0 ≤ greenOf p ∧ greenOf p ≤ 255) ∧
      (0 ≤ blueOf p ∧ blueOf p ≤ 255) := by
  simp only [redOf, greenOf, blueOf, getRedGreenBlue]
  omega

theorem colourDifference_eq (p q : Int) :
    colourDifference p q
      = max (max |redOf p - redOf q| |greenOf p - greenOf q|) |blueOf p - blueOf q| := rfl

theorem colourDifference_comm (p q : Int) : colourDifference p q = colourDifference q p := by
  simp only [colourDifference_eq, abs_sub_comm]

theorem colourDifference_self (p : Int) : colourDifference p p = 0 := by
  simp [colourDifference_eq]

theorem colourDifference_nonneg (p q : Int) : 0 ≤ colourDifference p q := by
  rw [colourDifference_eq]
  exact le_trans (abs_nonneg _) (le_max_right _ _)

/-- A 24-bit colour whose three channels equal those of `GREEN` is `GREEN`. -/
theorem colourDifference_green_pos (p : Int) (hp : isPixel p) (hne : p ≠ GREEN) :
    colourDifference p GREEN > 0 := by
  by_contra hle
  have h0 : colourDifference p GREEN = 0 :=
    le_antisymm (not_lt.mp hle) (colourDifference_nonneg _ _)
  rw [colourDifference_eq] at h0
  have hr : |redOf p - redOf GREEN| ≤ 0 := by
    rw [← h0]; exact le_trans (le_max_left _ _) (le_max_left _ _)
  have hg : |greenOf p - greenOf GREEN| ≤ 0 := by
    rw [← h0]; exact le_trans (le_max_right _ _) (le_max_left _ _)
  have hb : |blueOf p - blueOf GREEN| ≤ 0 := by
    rw [← h0]; exact le_max_right _ _
  have hr2 := abs_le.mp hr
  have hg2 := abs_le.mp hg
  have hb2 := abs_le.mp hb
  obtain ⟨hp0, hp1⟩ := hp
  apply hne
  simp only [redOf, greenOf, blueOf, getRedGreenBlue, GREEN] at hr2 hg2 hb2
  simp only [GREEN]
  norm_num at hr2 hg2 hb2 hp1
  omega

/-! ## Grid: basic facts -/

theorem Grid.inBounds_iff (g : Grid) (row col : Int) :
    g.inBounds row col = true ↔ 0 ≤ row ∧ row < g.numRows ∧ 0 ≤ col ∧ col < g.numCols := by
  simp [Grid.inBounds, and_assoc]

theorem Grid.index_lt (g : Grid) (row col : Int) (hlen : g.cells.length = g.numRows * g.numCols)
    (hb : g.inBounds row col = true) : g.index row col < g.cells.length := by
  rw [Grid.inBounds_iff] at hb
  obtain ⟨h0, h1, h2, h3⟩ := hb
  have hr : row.toNat < g.numRows := by omega
  have hc : col.toNat < g.numCols := by omega
  rw [hlen, Grid.index]
  calc row.toNat * g.numCols + col.toNat
      < row.toNat * g.numCols + g.numCols := by omega
    _ = (row.toNat + 1) * g.numCols := by ring
    _ ≤ g.numRows * g.numCols := Nat.mul_le_mul_right _ hr

theorem Grid.index_inj (g : Grid) (r c r2 c2 : Int) (h1 : g.inBounds r c = true)
    (h2 : g.inBounds r2 c2 = true) (h : g.index r c = g.index r2 c2) : r = r2 ∧ c = c2 := by
  rw [Grid.inBounds_iff] at h1 h2
  simp only [Grid.index] at h
  have hc : c.toNat < g.numCols := by omega
  have hc2 : c2.toNat < g.numCols := by omega
  have hpos : 0 < g.numCols := by omega
  have hd : (r.toNat * g.numCols + c.toNat) / g.numCols
      = (r2.toNat * g.numCols + c2.toNat) / g.numCols := by rw [h]
  have hm : (r.toNat * g.numCols + c.toNat) % g.numCols
      = (r2.toNat * g.numCols + c2.toNat) % g.numCols := by rw [h]
  rw [Nat.mul_comm r.toNat, Nat.mul_comm r2.toNat, Nat.mul_add_div hpos, Nat.mul_add_div hpos,
    Nat.div_eq_of_lt hc, Nat.div_eq_of_lt hc2] at hd
  rw [Nat.mul_comm r.toNat, Nat.mul_comm r2.toNat, Nat.mul_add_mod, Nat.mul_add_mod,
    Nat.mod_eq_of_lt hc, Nat.mod_eq_of_lt hc2] at hm
  omega

theorem Grid.sameShape_inBounds {a b : Grid} (h : a.sameShape b) (row col : Int) :
    a.inBounds row col = b.inBounds row col := by
  simp [Grid.inBounds, h.1, h.2.1]

theorem Grid.get_isSome (g : Grid) (row col : Int)
    (hlen : g.cells.length = g.numRows * g.numCols) (hb : g.inBounds row col = true) :
    ∃ v, g.get row col = some v := by
  have hlt := g.index_lt row col hlen hb
  exact ⟨g.cells[g.index row col], by simp [Grid.get, hb, List.getElem?_eq_getElem hlt]⟩

theorem Grid.get_mem (g : Grid) (row col : Int) (v : Int) (h : g.get row col = some v) :
    v ∈ g.cells := by
  unfold Grid.get at h
  split at h
  · exact List.getElem?_mem h
  · cases h

/-- Writing an in-bounds cell succeeds, keeps the shape, and changes that cell
only. -/
theorem Grid.set_spec (g : Grid) (row col : Int) (v : Int)
    (hlen : g.cells.length = g.numRows * g.numCols) (hb : g.inBounds row col = true) :
    ∃ g2, g.set row col v = some g2 ∧ g2.sameShape g ∧
      g2.get row col = some v ∧
      ∀ r c, (r ≠ row ∨ c ≠ col) → g2.get r c = g.get r c := by
  refine ⟨⟨g.numRows, g.numCols, g.cells.set (g.index row col) v⟩, by simp [Grid.set, hb],
    ⟨rfl, rfl, by simp⟩, ?_, ?_⟩
  · have hlt := g.index_lt row col hlen hb
    have hb2 : (Grid.mk g.numRows g.numCols (g.cells.set (g.index row col) v)).inBounds row col
        = true := hb
    simp only [Grid.get, hb2, if_true]
    simp only [Grid.index]
    simp only [Grid.index] at hlt
    rw [List.getElem?_set_self hlt]
  · intro r c hne
    by_cases hrc : g.inBounds r c = true
    · have hb2 : (Grid.mk g.numRows g.numCols (g.cells.set (g.index row col) v)).inBounds r c
          = true := hrc
      simp only [Grid.get, hb2, hrc, if_true]
      have hidx : g.index row col ≠ g.index r c := by
        intro heq
        have := g.index_inj row col r c hb hrc heq
        omega
      simp only [Grid.index] at hidx ⊢
      rw [List.getElem?_set_ne hidx]
    · have hb2 : ¬ (Grid.mk g.numRows g.numCols (g.cells.set (g.index row col) v)).inBounds r c
          = true := hrc
      simp [Grid.get, hb2, hrc]

/-! ## Loops -/

theorem forRange_succ {α : Type} (n : Nat) (body : Nat → α → Option α) (init : α) :
    forRange (n + 1) body init
      = match forRange n body init with
        | none => none
        | some a => body n a := rfl

/-- Total correctness of a counting loop from an invariant. -/
theorem forRange_total {α : Type} (Inv : Nat → α → Prop) (n : Nat)
    (body : Nat → α → Option α) (init : α) (h0 : Inv 0 init)
    (hstep : ∀ i, i < n → ∀ a, Inv i a → ∃ b, body i a = some b ∧ Inv (i + 1) b) :
    ∃ b, forRange n body init = some b ∧ Inv n b := by
  induction n with
  | zero => exact ⟨init, rfl, h0⟩
  | succ k ih =>
    obtain ⟨a, ha, hinv⟩ := ih (fun i hi => hstep i (Nat.lt_succ_of_lt hi))
    obtain ⟨b, hb, hinvb⟩ := hstep k (Nat.lt_succ_self k) a hinv
    exact ⟨b, by rw [forRange_succ, ha]; exact hb, hinvb⟩

/-- Partial correctness of a counting loop from an invariant. -/
theorem forRange_inv {α : Type} (Inv : Nat → α → Prop) (n : Nat)
    (body : Nat → α → Option α) (init : α) (h0 : Inv 0 init)
    (hstep : ∀ i, i < n → ∀ a b, Inv i a → body i a = some b → Inv (i + 1) b) :
    ∀ b, forRange n body init = some b → Inv n b := by
  induction n with
  | zero => intro b hb; cases hb; exact h0
  | succ k ih =>
    intro b hb
    rw [forRange_succ] at hb
    cases hk : forRange k body init with
    | none => rw [hk] at hb; cases hb
    | some a =>
      rw [hk] at hb
      exact hstep k (Nat.lt_succ_self k) a b
        (ih (fun i hi => hstep i (Nat.lt_succ_of_lt hi)) a hk) hb

/-! ## Edge detection: the scan of `isEdge` -/

theorem isEdgeCols_spec (g : Grid) (hlen : g.cells.length = g.numRows * g.numCols)
    (p i t : Int) (js : List Int) :
    ∃ b, isEdgeCols g p i t js = some b ∧
      (b = true ↔ ∃ j ∈ js, g.inBounds i j = true ∧
        ∃ q, g.get i j = some q ∧ colourDifference p q > t) := by
  induction js with
  | nil => exact ⟨false, rfl, by simp⟩
  | cons j js ih =>
    obtain ⟨b, hb, hiff⟩ := ih
    by_cases hin : g.inBounds i j = true
    · obtain ⟨q, hq⟩ := g.get_isSome i j hlen hin
      by_cases hd : colourDifference p q > t
      · refine ⟨true, by simp [isEdgeCols, hin, hq, hd], ?_⟩
        simp only [true_iff]
        exact ⟨j, List.mem_cons_self _ _, hin, q, hq, hd⟩
      · refine ⟨b, by simp [isEdgeCols, hin, hq, hd, hb], ?_⟩
        rw [hiff]
        constructor
        · rintro ⟨j2, hj2, h⟩
          exact ⟨j2, List.mem_cons_of_mem _ hj2, h⟩
        · rintro ⟨j2, hj2, hin2, q2, hq2, hd2⟩
          rcases List.mem_cons.mp hj2 with rfl | hmem
          · rw [hq] at hq2
            cases hq2
            exact absurd hd2 hd
          · exact ⟨j2, hmem, hin2, q2, hq2, hd2⟩
    · refine ⟨b, by simp [isEdgeCols, hin, hb], ?_⟩
      rw [hiff]
      constructor
      · rintro ⟨j2, hj2, h⟩
        exact ⟨j2, List.mem_cons_of_mem _ hj2, h⟩
      · rintro ⟨j2, hj2, hin2, h⟩
        rcases List.mem_cons.mp hj2 with rfl | hmem
        · exact absurd hin2 hin
        · exact ⟨j2, hmem, hin2, h⟩

theorem isEdgeRows_spec (g : Grid) (hlen : g.cells.length = g.numRows * g.numCols)
    (p col t : Int) (rows : List Int) :
    ∃ b, isEdgeRows g p col t rows = some b ∧
      (b = true ↔ ∃ i ∈ rows, ∃ j ∈ [col - 1, col, col + 1], g.inBounds i j = true ∧
        ∃ q, g.get i j = some q ∧ colourDifference p q > t) := by
  induction rows with
  | nil => exact ⟨false, rfl, by simp⟩
  | cons i rows ih =>
    obtain ⟨b, hb, hiff⟩ := ih
    obtain ⟨b1, hb1, hiff1⟩ := isEdgeCols_spec g hlen p i t [col - 1, col, col + 1]
    cases b1 with
    | true =>
      refine ⟨true, by simp [isEdgeRows, hb1], ?_⟩
      simp only [true_iff]
      exact ⟨i, List.mem_cons_self _ _, hiff1.mp rfl⟩
    | false =>
      refine ⟨b, by simp [isEdgeRows, hb1, hb], ?_⟩
      rw [hiff]
      constructor
      · rintro ⟨i2, hi2, h⟩
        exact ⟨i2, List.mem_cons_of_mem _ hi2, h⟩
      · rintro ⟨i2, hi2, h⟩
        rcases List.mem_cons.mp hi2 with rfl | hmem
        · have := hiff1.mpr h
          cases this
        · exact ⟨i2, hmem, h⟩

theorem mem_three_iff (x c : Int) : x ∈ [c - 1, c, c + 1] ↔ |x - c| ≤ 1 := by
  simp only [List.mem_cons, List.mem_singleton, List.not_mem_nil, or_false, abs_le]
  omega

/-- The function `isEdge` returns a value on every in-bounds cell, and that
value is `true` exactly when the clipped neighbourhood holds a contrasting
cell. -/
theorem isEdge_spec (g : Grid) (hlen : g.cells.length = g.numRows * g.numCols)
    (row col t : Int) (hb : g.inBounds row col = true) :
    ∃ b, isEdge g row col t = some b ∧ (b = true ↔ HasContrast g row col t) := by
  obtain ⟨p, hp⟩ := g.get_isSome row col hlen hb
  obtain ⟨b, hbe, hiff⟩ := isEdgeRows_spec g hlen p col t [row - 1, row, row + 1]
  refine ⟨b, by simp [isEdge, hp, hbe], ?_⟩
  rw [hiff]
  constructor
  · rintro ⟨i, hi, j, hj, hin, q, hq, hd⟩
    exact ⟨i, j, p, q, (mem_three_iff i row).mp hi, (mem_three_iff j col).mp hj, hin, hp, hq, hd⟩
  · rintro ⟨i, j, p2, q, hi, hj, hin, hp2, hq, hd⟩
    rw [hp] at hp2
    cases hp2
    exact ⟨i, (mem_three_iff i row).mpr hi, j, (mem_three_iff j col).mpr hj, hin, q, hq, hd⟩

/-! ## Edge detection: the centre comparison -/

theorem isEdgeSkipCentreCols_eq (g : Grid) (p row col i t : Int) (ht : 0 ≤ t)
    (hp : g.get row col = some p) (js : List Int) :
    isEdgeSkipCentreCols g p row col i t js = isEdgeCols g p i t js := by
  induction js with
  | nil => rfl
  | cons j js ih =>
    by_cases hc : i = row ∧ j = col
    · obtain ⟨rfl, rfl⟩ := hc
      have hin : g.inBounds i j = true := by
        unfold Grid.get at hp
        by_contra hne
        simp [hne] at hp
      have hself : ¬ colourDifference p p > t := by
        rw [colourDifference_self]; omega
      simp [isEdgeSkipCentreCols, isEdgeCols, hin, hp, hself, ih]
    · have hdec : (decide (i = row) && decide (j = col)) = false := by
        simpa using hc
      simp only [isEdgeSkipCentreCols, isEdgeCols, hdec, Bool.not_false, Bool.and_true, ih]

theorem isEdgeSkipCentreRows_eq (g : Grid) (p row col t : Int) (ht : 0 ≤ t)
    (hp : g.get row col = some p) (rows : List Int) :
    isEdgeSkipCentreRows g p row col t rows = isEdgeRows g p col t rows := by
  induction rows with
  | nil => rfl
  | cons i rows ih =>
    simp only [isEdgeSkipCentreRows, isEdgeRows, isEdgeSkipCentreCols_eq g p row col i t ht hp, ih]

/-! ## Nested loops over the cells of a grid -/

/-- Total correctness of a row-by-row, column-by-column pass: `Inv i j` holds
when the rows before `i` and the first `j` cells of row `i` have been visited. -/
theorem nested_total {α : Type} (Inv : Nat → Nat → α → Prop) (n m : Nat)
    (step : Nat → Nat → α → Option α) (init : α) (h0 : Inv 0 0 init)
    (hrow : ∀ i a, Inv i m a → Inv (i + 1) 0 a)
    (hstep : ∀ i j, i < n → j < m → ∀ a, Inv i j a →
      ∃ b, step i j a = some b ∧ Inv i (j + 1) b) :
    ∃ b, forRange n (fun i a => forRange m (fun j a => step i j a) a) init = some b ∧
      Inv n 0 b := by
  apply forRange_total (fun i a => Inv i 0 a) n _ init h0
  intro i hi a ha
  obtain ⟨b, hb, hinv⟩ := forRange_total (fun j a => Inv i j a) m (fun j a => step i j a) a ha
    (fun j hj a2 ha2 => hstep i j hi hj a2 ha2)
  exact ⟨b, hb, hrow i b hinv⟩

/-- Partial correctness of a row-by-row, column-by-column pass. -/
theorem nested_inv {α : Type} (Inv : Nat → Nat → α → Prop) (n m : Nat)
    (step : Nat → Nat → α → Option α) (init : α) (h0 : Inv 0 0 init)
    (hrow : ∀ i a, Inv i m a → Inv (i + 1) 0 a)
    (hstep : ∀ i j, i < n → j < m → ∀ a b, Inv i j a → step i j a = some b → Inv i (j + 1) b) :
    ∀ b, forRange n (fun i a => forRange m (fun j a => step i j a) a) init = some b →
      Inv n 0 b := by
  apply forRange_inv (fun i a => Inv i 0 a) n _ init h0
  intro i hi a b ha hb
  exact hrow i b (forRange_inv (fun j a => Inv i j a) m (fun j a => step i j a) a ha
    (fun j hj a2 b2 ha2 hb2 => hstep i j hi hj a2 b2 ha2 hb2) b hb)

theorem Grid.new_length (n m : Nat) : (Grid.new n m).cells.length = n * m := by
  simp [Grid.new]

theorem Grid.inBounds_cast (g : Grid) (r c : Nat) (hr : r < g.numRows) (hc : c < g.numCols) :
    g.inBounds (r : Int) (c : Int) = true := by
  rw [Grid.inBounds_iff]; omega

/-! ## Edge detection: the output grid -/

/-- The loops of `applyEdgeDetection` return a grid of the size of the input
whose cell `(r, c)` is `BLACK` or `WHITE` according to `isEdge`. -/
theorem applyEdgeDetection_cells (g : Grid) (t : Int)
    (hlen : g.cells.length = g.numRows * g.numCols) :
    ∃ res, applyEdgeDetection g t = some res ∧
      res.sameShape (Grid.new g.numRows g.numCols) ∧
      ∀ r c : Nat, r < g.numRows → c < g.numCols →
        ∃ b, isEdge g r c t = some b ∧ res.get r c = some (if b then BLACK else WHITE) := by
  have key := nested_total
    (fun i j (res : Grid) => res.sameShape (Grid.new g.numRows g.numCols) ∧
      ∀ r c : Nat, r < g.numRows → c < g.numCols → (r < i ∨ (r = i ∧ c < j)) →
        ∃ b, isEdge g r c t = some b ∧ res.get r c = some (if b then BLACK else WHITE))
    g.numRows g.numCols
    (fun row col result =>
      match isEdge g row col t with
      | none => none
      | some edge => result.set row col (if edge then BLACK else WHITE))
    (Grid.new g.numRows g.numCols)
    ⟨⟨rfl, rfl, rfl⟩, fun r c _ _ h => by omega⟩
    (fun i a h => ⟨h.1, fun r c hr hc hd => h.2 r c hr hc (by omega)⟩)
    (by
      intro i j hi hj a ⟨hshape, hcells⟩
      have hbi : g.inBounds (i : Int) (j : Int) = true := g.inBounds_cast i j hi hj
      obtain ⟨b, hb, _⟩ := isEdge_spec g hlen i j t hbi
      have halen : a.cells.length = a.numRows * a.numCols := by
        rw [hshape.2.2, hshape.1, hshape.2.1, Grid.new_length]; rfl
      have hba : a.inBounds (i : Int) (j : Int) = true := by
        rw [Grid.sameShape_inBounds hshape]
        exact (Grid.new g.numRows g.numCols).inBounds_cast i j hi hj
      obtain ⟨a2, hset, hsh2, hget, hother⟩ :=
        a.set_spec i j (if b then BLACK else WHITE) halen hba
      refine ⟨a2, by simp only [hb]; exact hset, ⟨?_, ?_⟩⟩
      · exact ⟨hsh2.1.trans hshape.1, hsh2.2.1.trans hshape.2.1, hsh2.2.2.trans hshape.2.2⟩
      · intro r c hr hc hd
        by_cases hrc : r = i ∧ c = j
        · obtain ⟨rfl, rfl⟩ := hrc
          exact ⟨b, hb, hget⟩
        · obtain ⟨b2, hb2, hg2⟩ := hcells r c hr hc (by omega)
          refine ⟨b2, hb2, ?_⟩
          rw [hother r c (by omega)]
          exact hg2)
  obtain ⟨res, hres, hshape, hcells⟩ := key
  exact ⟨res, hres, hshape, fun r c hr hc => hcells r c hr hc (Or.inl hr)⟩

/-! ## Green screen: the overlay loops -/

theorem wrapInt32_target (off : Int) (k n : Nat) (hoff : isInt32 off) (hk : k < 2 ^ 31)
    (hn : n < 2 ^ 31) :
    (0 ≤ wrapInt32 (off + k) ∧ wrapInt32 (off + k) < n) ↔ (0 ≤ off + k ∧ off + k < n) := by
  unfold isInt32 at hoff
  unfold wrapInt32
  norm_num at hoff hk hn ⊢
  omega

theorem wrapInt32_eq (x : Int) (n : Nat) (hn : n < 2 ^ 31) (h : 0 ≤ x ∧ x < n) :
    wrapInt32 x = x := by
  unfold wrapInt32
  norm_num at hn ⊢
  omega

/-- The overlay loops of `applyGreenScreen` return a grid of the shape of
`base`; a base cell takes the colour of the opaque sticker cell that lands on
it and keeps its own colour when there is none. -/
theorem applyGreenScreen_cells (base sticker : Grid) (offR offC tol : Int)
    (hbase : base.valid) (hst : sticker.valid) (hR : isInt32 offR) (hC : isInt32 offC) :
    ∃ res, applyGreenScreen base sticker offR offC tol = some res ∧ res.sameShape base ∧
      ∀ R C : Int, base.inBounds R C = true →
        (∀ p, Covers sticker offR offC tol sticker.numRows 0 R C p → res.get R C = some p) ∧
        ((¬ ∃ p, Covers sticker offR offC tol sticker.numRows 0 R C p) →
          res.get R C = base.get R C) := by
  obtain ⟨hblen, hbr, hbc⟩ := hbase
  obtain ⟨hslen, hsr, hsc⟩ := hst
  apply nested_total
    (fun i j (res : Grid) => res.sameShape base ∧
      ∀ R C : Int, base.inBounds R C = true →
        (∀ p, Covers sticker offR offC tol i j R C p → res.get R C = some p) ∧
        ((¬ ∃ p, Covers sticker offR offC tol i j R C p) → res.get R C = base.get R C))
    sticker.numRows sticker.numCols
    (fun row col result =>
      if result.inBounds (wrapInt32 (offR + row)) (wrapInt32 (offC + col)) then
        match sticker.get row col with
        | none => none
        | some stickerPixel =>
          if colourDifference stickerPixel GREEN > tol then
            result.set (wrapInt32 (offR + row)) (wrapInt32 (offC + col)) stickerPixel
          else some result
      else some result)
    base
  · refine ⟨⟨rfl, rfl, rfl⟩, fun R C _ => ⟨?_, fun _ => rfl⟩⟩
    rintro p ⟨hin, hd, _⟩
    rw [Grid.inBounds_iff] at hin
    omega
  · rintro i a ⟨hshape, hcells⟩
    refine ⟨hshape, fun R C hb => ?_⟩
    have hiff : ∀ p, Covers sticker offR offC tol (i + 1) 0 R C p
        ↔ Covers sticker offR offC tol i sticker.numCols R C p := by
      intro p
      unfold Covers
      constructor
      · rintro ⟨hin, hd, hrest⟩
        refine ⟨hin, ?_, hrest⟩
        rw [Grid.inBounds_iff] at hin
        omega
      · rintro ⟨hin, hd, hrest⟩
        refine ⟨hin, ?_, hrest⟩
        rw [Grid.inBounds_iff] at hin
        omega
    simp only [hiff]
    exact hcells R C hb
  · rintro i j hi hj a ⟨hshape, hcells⟩
    have hsi : sticker.inBounds (i : Int) (j : Int) = true := sticker.inBounds_cast i j hi hj
    obtain ⟨px, hpx⟩ := sticker.get_isSome i j hslen hsi
    have halen : a.cells.length = a.numRows * a.numCols := by
      rw [hshape.2.2, hshape.1, hshape.2.1]; exact hblen
    -- a visited-set step that adds no opaque cell over `(R, C)`
    have hkeep : ∀ R C : Int, (¬ (R - offR = i ∧ C - offC = j) ∨ ¬ colourDifference px GREEN > tol) →
        ∀ p, Covers sticker offR offC tol i (j + 1) R C p ↔ Covers sticker offR offC tol i j R C p := by
      intro R C hne p
      unfold Covers
      constructor
      · rintro ⟨hin, hd, hg, hdiff⟩
        refine ⟨hin, ?_, hg, hdiff⟩
        by_cases hcell : R - offR = i ∧ C - offC = j
        · rw [hcell.1, hcell.2, hpx] at hg
          cases hg
          rcases hne with h | h
          · exact absurd hcell h
          · exact absurd hdiff h
        · omega
      · rintro ⟨hin, hd, hg, hdiff⟩
        exact ⟨hin, by omega, hg, hdiff⟩
    by_cases hin : a.inBounds (wrapInt32 (offR + i)) (wrapInt32 (offC + j)) = true
    · have hinb : base.inBounds (wrapInt32 (offR + i)) (wrapInt32 (offC + j)) = true := by
        rw [← Grid.sameShape_inBounds hshape]; exact hin
      have hwb := (base.inBounds_iff _ _).mp hinb
      have hri := (wrapInt32_target offR i base.numRows hR (by omega) hbr).mp ⟨hwb.1, hwb.2.1⟩
      have hci := (wrapInt32_target offC j base.numCols hC (by omega) hbc).mp
        ⟨hwb.2.2.1, hwb.2.2.2⟩
      have hwr := wrapInt32_eq (offR + i) base.numRows hbr hri
      have hwc := wrapInt32_eq (offC + j) base.numCols hbc hci
      by_cases hd : colourDifference px GREEN > tol
      · obtain ⟨a2, hset, hsh2, hget, hother⟩ :=
          a.set_spec (wrapInt32 (offR + i)) (wrapInt32 (offC + j)) px halen hin
        refine ⟨a2, by simp only [hin, hpx, hd, if_true]; exact hset, ⟨?_, ?_⟩⟩
        · exact ⟨hsh2.1.trans hshape.1, hsh2.2.1.trans hshape.2.1, hsh2.2.2.trans hshape.2.2⟩
        · intro R C hb
          by_cases hcell : R - offR = i ∧ C - offC = j
          · have hR2 : R = wrapInt32 (offR + i) := by rw [hwr]; omega
            have hC2 : C = wrapInt32 (offC + j) := by rw [hwc]; omega
            constructor
            · rintro p ⟨_, _, hg, _⟩
              rw [hcell.1, hcell.2, hpx] at hg
              cases hg
              rw [hR2, hC2]; exact hget
            · intro hno
              exfalso
              apply hno
              refine ⟨px, ?_, ?_, ?_, hd⟩
              · rw [hcell.1, hcell.2]; exact hsi
              · omega
              · rw [hcell.1, hcell.2]; exact hpx
          · have hne : R ≠ wrapInt32 (offR + i) ∨ C ≠ wrapInt32 (offC + j) := by
              rw [hwr, hwc]; omega
            simp only [hkeep R C (Or.inl hcell)]
            rw [hother R C hne]
            exact hcells R C hb
      · refine ⟨a, by simp only [hin, hpx, hd, if_true, if_false], ⟨hshape, ?_⟩⟩
        intro R C hb
        simp only [hkeep R C (Or.inr hd)]
        exact hcells R C hb
    · refine ⟨a, by simp only [hin]; rfl, ⟨hshape, ?_⟩⟩
      intro R C hb
      have hcell : ¬ (R - offR = i ∧ C - offC = j) := by
        intro hcell
        apply hin
        rw [Grid.sameShape_inBounds hshape]
        have hRC := (base.inBounds_iff R C).mp hb
        have hri : 0 ≤ offR + i ∧ offR + (i : Int) < base.numRows := by omega
        have hci : 0 ≤ offC + j ∧ offC + (j : Int) < base.numCols := by omega
        rw [wrapInt32_eq (offR + i) base.numRows hbr hri,
          wrapInt32_eq (offC + j) base.numCols hbc hci, Grid.inBounds_iff]
        omega
      simp only [hkeep R C (Or.inl hcell)]
      exact hcells R C hb

/-! ## Scatter: one call of `getRandomScatterPixel` -/

theorem getRandomScatterPixel_succ {σ : Type} (rnd : σ → Int → Int → Int × σ) (g : Grid)
    (row col radius : Int) (fuel : Nat) (s : σ) :
    getRandomScatterPixel rnd g row col radius (fuel + 1) s
      = if g.inBounds (drawPair rnd row col radius s).1.1 (drawPair rnd row col radius s).1.2 then
          match g.get (drawPair rnd row col radius s).1.1 (drawPair rnd row col radius s).1.2 with
          | none => none
          | some pixel => some (pixel, (drawPair rnd row col radius s).2)
        else getRandomScatterPixel rnd g row col radius fuel (drawPair rnd row col radius s).2 :=
  rfl

/-- A pair drawn from an in-range source lies in the window around the cell. -/
theorem drawPair_window {σ : Type} (rnd : σ → Int → Int → Int × σ) (hrnd : InRange rnd)
    (row col radius : Int) (hrad : 0 ≤ radius) (s : σ) :
    |(drawPair rnd row col radius s).1.1 - row| ≤ radius ∧
      |(drawPair rnd row col radius s).1.2 - col| ≤ radius := by
  have h1 := hrnd s (row - radius) (row + radius) (by omega)
  have h2 := hrnd (rnd s (row - radius) (row + radius)).2 (col - radius) (col + radius)
    (by omega)
  simp only [drawPair, abs_le]
  omega

/-- Whatever `getRandomScatterPixel` returns is the colour of an in-bounds cell
of the grid inside the window. -/
theorem getRandomScatterPixel_sound {σ : Type} (rnd : σ → Int → Int → Int × σ)
    (hrnd : InRange rnd) (g : Grid) (row col radius : Int) (hrad : 0 ≤ radius) (fuel : Nat) :
    ∀ (s : σ) (out : Int × σ), getRandomScatterPixel rnd g row col radius fuel s = some out →
      ∃ r c, g.inBounds r c = true ∧ |r - row| ≤ radius ∧ |c - col| ≤ radius ∧
        g.get r c = some out.1 := by
  induction fuel with
  | zero => intro s out h; cases h
  | succ k ih =>
    intro s out h
    rw [getRandomScatterPixel_succ] at h
    have hw := drawPair_window rnd hrnd row col radius hrad s
    by_cases hin : g.inBounds (drawPair rnd row col radius s).1.1
        (drawPair rnd row col radius s).1.2 = true
    · rw [if_pos hin] at h
      cases hg : g.get (drawPair rnd row col radius s).1.1 (drawPair rnd row col radius s).1.2 with
      | none => rw [hg] at h; cases h
      | some v =>
        rw [hg] at h
        cases h
        exact ⟨_, _, hin, hw.1, hw.2, hg⟩
    · rw [if_neg hin] at h
      exact ih _ out h

/-- More fuel does not change a result. -/
theorem getRandomScatterPixel_mono {σ : Type} (rnd : σ → Int → Int → Int × σ) (g : Grid)
    (row col radius : Int) (fuel : Nat) :
    ∀ (fuel2 : Nat) (s : σ) (out : Int × σ), fuel ≤ fuel2 →
      getRandomScatterPixel rnd g row col radius fuel s = some out →
      getRandomScatterPixel rnd g row col radius fuel2 s = some out := by
  induction fuel with
  | zero => intro fuel2 s out _ h; cases h
  | succ k ih =>
    intro fuel2 s out hle h
    obtain ⟨k2, rfl⟩ : ∃ k2, fuel2 = k2 + 1 := ⟨fuel2 - 1, by omega⟩
    rw [getRandomScatterPixel_succ] at h ⊢
    by_cases hin : g.inBounds (drawPair rnd row col radius s).1.1
        (drawPair rnd row col radius s).1.2 = true
    · rw [if_pos hin] at h ⊢
      exact h
    · rw [if_neg hin] at h ⊢
      exact ih k2 _ out (by omega) h

/-- The loop returns at the first pass whose pair is in bounds. -/
theorem getRandomScatterPixel_first {σ : Type} (rnd : σ → Int → Int → Int × σ) (g : Grid)
    (hlen : g.cells.length = g.numRows * g.numCols) (row col radius : Int) (k : Nat) :
    ∀ (s : σ),
      (∀ i, i < k → g.inBounds
        (drawPair rnd row col radius (stateAfter rnd row col radius i s)).1.1
        (drawPair rnd row col radius (stateAfter rnd row col radius i s)).1.2 = false) →
      g.inBounds
        (drawPair rnd row col radius (stateAfter rnd row col radius k s)).1.1
        (drawPair rnd row col radius (stateAfter rnd row col radius k s)).1.2 = true →
      ∃ v, g.get (drawPair rnd row col radius (stateAfter rnd row col radius k s)).1.1
          (drawPair rnd row col radius (stateAfter rnd row col radius k s)).1.2 = some v ∧
        ∀ fuel, k < fuel → getRandomScatterPixel rnd g row col radius fuel s
          = some (v, (drawPair rnd row col radius (stateAfter rnd row col radius k s)).2) := by
  induction k with
  | zero =>
    intro s _ hacc
    simp only [stateAfter] at hacc ⊢
    obtain ⟨v, hv⟩ := g.get_isSome _ _ hlen hacc
    refine ⟨v, hv, fun fuel hf => ?_⟩
    obtain ⟨f, rfl⟩ : ∃ f, fuel = f + 1 := ⟨fuel - 1, by omega⟩
    rw [getRandomScatterPixel_succ, if_pos hacc, hv]
  | succ k ih =>
    intro s hrej hacc
    have h0 := hrej 0 (Nat.succ_pos k)
    simp only [stateAfter] at h0 hacc ⊢
    obtain ⟨v, hv, hrun⟩ := ih (drawPair rnd row col radius s).2
      (fun i hi => by
        have := hrej (i + 1) (Nat.succ_lt_succ hi)
        simpa only [stateAfter] using this)
      hacc
    refine ⟨v, hv, fun fuel hf => ?_⟩
    obtain ⟨f, rfl⟩ : ∃ f, fuel = f + 1 := ⟨fuel - 1, by omega⟩
    rw [getRandomScatterPixel_succ, if_neg (by simp [h0])]
    exact hrun f (by omega)

/-- Against the source that always answers `low`, the loop at the corner of a
grid rejects every pass. -/
theorem getRandomScatterPixel_lowSource (g : Grid) (radius : Int) (hrad : 1 ≤ radius)
    (fuel : Nat) : getRandomScatterPixel lowSource g 0 0 radius fuel () = none := by
  induction fuel with
  | zero => rfl
  | succ k ih =>
    rw [getRandomScatterPixel_succ]
    have hout : g.inBounds (drawPair lowSource 0 0 radius ()).1.1
        (drawPair lowSource 0 0 radius ()).1.2 = false := by
      have hneg : ¬ (0 : Int) ≤ 0 - radius := by omega
      simp only [drawPair, lowSource, Grid.inBounds, decide_eq_false hneg, Bool.false_and]
    rw [hout]
    exact ih

theorem lowSource_inRange : InRange lowSource := by
  intro s low high h
  simp only [lowSource]
  omega

theorem cycleSource_inRange : InRange cycleSource := by
  intro n low high h
  simp only [cycleSource]
  have hpos : (0 : Int) < high - low + 1 := by omega
  have h1 := Int.emod_nonneg (n : Int) (ne_of_gt hpos)
  have h2 := Int.emod_lt_of_pos (n : Int) hpos
  omega

/-! ## Scatter: the loops of `applyScatter` -/

/-- When some pass accepts, enough fuel gives a result. -/
theorem getRandomScatterPixel_of_accept {σ : Type} (rnd : σ → Int → Int → Int × σ) (g : Grid)
    (hlen : g.cells.length = g.numRows * g.numCols) (row col radius : Int) (k : Nat) :
    ∀ (s : σ),
      g.inBounds
        (drawPair rnd row col radius (stateAfter rnd row col radius k s)).1.1
        (drawPair rnd row col radius (stateAfter rnd row col radius k s)).1.2 = true →
      ∃ out, getRandomScatterPixel rnd g row col radius (k + 1) s = some out := by
  induction k with
  | zero =>
    intro s hacc
    simp only [stateAfter] at hacc
    obtain ⟨v, hv⟩ := g.get_isSome _ _ hlen hacc
    exact ⟨_, by rw [getRandomScatterPixel_succ, if_pos hacc, hv]⟩
  | succ k ih =>
    intro s hacc
    simp only [stateAfter] at hacc
    by_cases h0 : g.inBounds (drawPair rnd row col radius s).1.1
        (drawPair rnd row col radius s).1.2 = true
    · obtain ⟨v, hv⟩ := g.get_isSome _ _ hlen h0
      exact ⟨_, by rw [getRandomScatterPixel_succ, if_pos h0, hv]⟩
    · obtain ⟨out, hout⟩ := ih _ hacc
      exact ⟨out, by rw [getRandomScatterPixel_succ, if_neg h0]; exact hout⟩

theorem forRange_mono {α : Type} (n : Nat) (body : Nat → Nat → α → Option α)
    (hmono : ∀ f f2 i a b, f ≤ f2 → body f i a = some b → body f2 i a = some b) :
    ∀ f f2 init b, f ≤ f2 → forRange n (body f) init = some b →
      forRange n (body f2) init = some b := by
  induction n with
  | zero => intro f f2 init b _ h; exact h
  | succ k ih =>
    intro f f2 init b hle h
    rw [forRange_succ] at h ⊢
    cases hk : forRange k (body f) init with
    | none => rw [hk] at h; cases h
    | some a =>
      rw [hk] at h
      rw [ih f f2 init a hle hk]
      exact hmono f f2 k a b hle h

/-- A counting loop whose body needs fuel: when every step succeeds with some
fuel, one amount of fuel serves the whole loop. -/
theorem forRange_fuel {α : Type} (Inv : Nat → α → Prop) (n : Nat)
    (body : Nat → Nat → α → Option α)
    (hmono : ∀ f f2 i a b, f ≤ f2 → body f i a = some b → body f2 i a = some b)
    (init : α) (h0 : Inv 0 init)
    (hstep : ∀ i, i < n → ∀ a, Inv i a → ∃ f b, body f i a = some b ∧ Inv (i + 1) b) :
    ∃ f b, forRange n (body f) init = some b ∧ Inv n b := by
  induction n with
  | zero => exact ⟨0, init, rfl, h0⟩
  | succ k ih =>
    obtain ⟨f0, a, ha, hinv⟩ := ih (fun i hi => hstep i (Nat.lt_succ_of_lt hi))
    obtain ⟨f1, b, hb, hinvb⟩ := hstep k (Nat.lt_succ_self k) a hinv
    refine ⟨max f0 f1, b, ?_, hinvb⟩
    rw [forRange_succ, forRange_mono k body hmono f0 (max f0 f1) init a (le_max_left _ _) ha]
    exact hmono f1 (max f0 f1) k a b (le_max_right _ _) hb

/-- The body of the inner loop of `applyScatter`. -/
theorem scatterCell_mono {σ : Type} (rnd : σ → Int → Int → Int × σ) (g : Grid) (radius : Int)
    (row : Nat) (f f2 col : Nat) (st out : Grid × σ) (hle : f ≤ f2)
    (h : (match getRandomScatterPixel rnd g row col radius f st.2 with
      | none => none
      | some drawn =>
        match st.1.set row col drawn.1 with
        | none => none
        | some result => some (result, drawn.2)) = some out) :
    (match getRandomScatterPixel rnd g row col radius f2 st.2 with
      | none => none
      | some drawn =>
        match st.1.set row col drawn.1 with
        | none => none
        | some result => some (result, drawn.2)) = some out := by
  cases hd : getRandomScatterPixel rnd g row col radius f st.2 with
  | none => rw [hd] at h; cases h
  | some drawn =>
    rw [getRandomScatterPixel_mono rnd g row col radius f f2 st.2 drawn hle hd]
    rw [hd] at h
    exact h

/-- With a source that eventually accepts, some amount of fuel lets
`applyScatter` fill the whole grid. -/
theorem applyScatter_total {σ : Type} (rnd : σ → Int → Int → Int × σ) (g : Grid)
    (hlen : g.cells.length = g.numRows * g.numCols) (radius : Int)
    (hacc : EventuallyAccepts rnd g radius) (s : σ) :
    ∃ fuel out, applyScatter rnd g radius fuel s = some out ∧
      out.1.sameShape (Grid.new g.numRows g.numCols) := by
  apply forRange_fuel (fun _ (st : Grid × σ) => st.1.sameShape (Grid.new g.numRows g.numCols))
    g.numRows
    (fun fuel row st =>
      forRange g.numCols (fun col st =>
        match getRandomScatterPixel rnd g row col radius fuel st.2 with
        | none => none
        | some drawn =>
          match st.1.set row col drawn.1 with
          | none => none
          | some result => some (result, drawn.2)) st)
  · intro f f2 i a b hle h
    exact forRange_mono g.numCols _
      (fun f f2 col st out hle h => scatterCell_mono rnd g radius i f f2 col st out hle h)
      f f2 a b hle h
  · exact ⟨rfl, rfl, rfl⟩
  · intro i hi a ha
    apply forRange_fuel
      (fun _ (st : Grid × σ) => st.1.sameShape (Grid.new g.numRows g.numCols)) g.numCols
      (fun fuel col st =>
        match getRandomScatterPixel rnd g i col radius fuel st.2 with
        | none => none
        | some drawn =>
          match st.1.set i col drawn.1 with
          | none => none
          | some result => some (result, drawn.2))
      (fun f f2 col st out hle h => scatterCell_mono rnd g radius i f f2 col st out hle h)
      a ha
    intro j hj st hst
    obtain ⟨k, hk⟩ := hacc st.2 i j hi hj
    obtain ⟨drawn, hdrawn⟩ := getRandomScatterPixel_of_accept rnd g hlen i j radius k st.2 hk
    have hstlen : st.1.cells.length = st.1.numRows * st.1.numCols := by
      rw [hst.2.2, hst.1, hst.2.1, Grid.new_length]; rfl
    have hbst : st.1.inBounds (i : Int) (j : Int) = true := by
      rw [Grid.sameShape_inBounds hst]
      exact (Grid.new g.numRows g.numCols).inBounds_cast i j hi hj
    obtain ⟨g2, hset, hsh2, _, _⟩ := st.1.set_spec i j drawn.1 hstlen hbst
    refine ⟨k + 1, (g2, drawn.2), ?_, ?_⟩
    · simp only [hdrawn, hset]
    · exact ⟨hsh2.1.trans hst.1, hsh2.2.1.trans hst.2.1, hsh2.2.2.trans hst.2.2⟩

/-- Every cell written by `applyScatter` holds the colour of an in-bounds cell
of the original grid inside the window. -/
theorem applyScatter_cells {σ : Type} (rnd : σ → Int → Int → Int × σ) (hrnd : InRange rnd)
    (g : Grid) (radius : Int)
    (hrad : 0 ≤ radius) (fuel : Nat) (s : σ) (out : Grid × σ)
    (hrun : applyScatter rnd g radius fuel s = some out) :
    out.1.sameShape (Grid.new g.numRows g.numCols) ∧
      ∀ r c : Nat, r < g.numRows → c < g.numCols →
        ∃ r2 c2 v, g.inBounds r2 c2 = true ∧ |r2 - r| ≤ radius ∧ |c2 - c| ≤ radius ∧
          g.get r2 c2 = some v ∧ out.1.get r c = some v := by
  have key := nested_inv
    (fun i j (st : Grid × σ) => st.1.sameShape (Grid.new g.numRows g.numCols) ∧
      ∀ r c : Nat, r < g.numRows → c < g.numCols → (r < i ∨ (r = i ∧ c < j)) →
        ∃ r2 c2 v, g.inBounds r2 c2 = true ∧ |r2 - r| ≤ radius ∧ |c2 - c| ≤ radius ∧
          g.get r2 c2 = some v ∧ st.1.get r c = some v)
    g.numRows g.numCols
    (fun row col st =>
      match getRandomScatterPixel rnd g row col radius fuel st.2 with
      | none => none
      | some drawn =>
        match st.1.set row col drawn.1 with
        | none => none
        | some result => some (result, drawn.2))
    (Grid.new g.numRows g.numCols, s)
    ⟨⟨rfl, rfl, rfl⟩, fun r c _ _ h => by omega⟩
    (fun i a h => ⟨h.1, fun r c hr hc hd => h.2 r c hr hc (by omega)⟩)
    (by
      intro i j hi hj a b ⟨hshape, hcells⟩ hb
      cases hd : getRandomScatterPixel rnd g i j radius fuel a.2 with
      | none => simp only [hd] at hb; cases hb
      | some drawn =>
        simp only [hd] at hb
        have halen : a.1.cells.length = a.1.numRows * a.1.numCols := by
          rw [hshape.2.2, hshape.1, hshape.2.1, Grid.new_length]; rfl
        have hba : a.1.inBounds (i : Int) (j : Int) = true := by
          rw [Grid.sameShape_inBounds hshape]
          exact (Grid.new g.numRows g.numCols).inBounds_cast i j hi hj
        obtain ⟨a2, hset, hsh2, hget, hother⟩ := a.1.set_spec i j drawn.1 halen hba
        rw [hset] at hb
        cases hb
        refine ⟨⟨hsh2.1.trans hshape.1, hsh2.2.1.trans hshape.2.1, hsh2.2.2.trans hshape.2.2⟩, ?_⟩
        intro r c hr hc hdone
        by_cases hrc : r = i ∧ c = j
        · obtain ⟨rfl, rfl⟩ := hrc
          obtain ⟨r2, c2, hin, h1, h2, hg⟩ :=
            getRandomScatterPixel_sound rnd hrnd g r c radius hrad fuel a.2 drawn hd
          exact ⟨r2, c2, drawn.1, hin, h1, h2, hg, hget⟩
        · obtain ⟨r2, c2, v, hin, h1, h2, hg, hres⟩ := hcells r c hr hc (by omega)
          refine ⟨r2, c2, v, hin, h1, h2, hg, ?_⟩
          show a2.get r c = some v
          rw [hother r c (by omega)]
          exact hres)
    out hrun
  exact ⟨key.1, fun r c hr hc => key.2 r c hr hc (Or.inl hr)⟩

theorem midSource_accepts (g : Grid) (radius : Int) : EventuallyAccepts midSource g radius := by
  intro s r c hr hc
  refine ⟨0, ?_⟩
  simp only [stateAfter, drawPair, midSource]
  rw [Grid.inBounds_iff]
  omega

/-! ## Green screen: transparent stickers -/

/-- A sticker whose cells all lie within the tolerance of `GREEN` leaves the
base grid as it is. -/
theorem applyGreenScreen_unchanged (base sticker : Grid) (offR offC tol : Int)
    (hslen : sticker.cells.length = sticker.numRows * sticker.numCols)
    (htr : ∀ p ∈ sticker.cells, colourDifference p GREEN ≤ tol) :
    applyGreenScreen base sticker offR offC tol = some base := by
  obtain ⟨res, hres, heq⟩ := nested_total (fun _ _ (res : Grid) => res = base)
    sticker.numRows sticker.numCols
    (fun row col result =>
      if result.inBounds (wrapInt32 (offR + row)) (wrapInt32 (offC + col)) then
        match sticker.get row col with
        | none => none
        | some stickerPixel =>
          if colourDifference stickerPixel GREEN > tol then
            result.set (wrapInt32 (offR + row)) (wrapInt32 (offC + col)) stickerPixel
          else some result
      else some result)
    base rfl (fun _ _ h => h)
    (by
      intro i j hi hj a ha
      refine ⟨a, ?_, ha⟩
      obtain ⟨px, hpx⟩ := sticker.get_isSome i j hslen (sticker.inBounds_cast i j hi hj)
      have hd : ¬ colourDifference px GREEN > tol :=
        not_lt.mpr (htr px (sticker.get_mem i j px hpx))
      by_cases hin : a.inBounds (wrapInt32 (offR + i)) (wrapInt32 (offC + j)) = true
      · simp only [hin, hpx, hd, if_true, if_false]
      · simp only [hin]; rfl)
  rw [heq] at hres
  exact hres

/-! ## The claims -/

/-- C1: for every pair of packed pixels, `colourDifference` is the largest of
the absolute differences of their red, green and blue channels (the Chebyshev
distance across channels), each channel being an 8-bit value. -/
theorem colourDifference_chebyshev (p1 p2 : Int) :
    colourDifference p1 p2 = chebyshev p1 p2 ∧
      colourDifference p1 p2
        = max |redOf p1 - redOf p2| (max |greenOf p1 - greenOf p2| |blueOf p1 - blueOf p2|) ∧
      (0 ≤ redOf p1 ∧ redOf p1 ≤ 255 ∧ 0 ≤ greenOf p1 ∧ greenOf p1 ≤ 255 ∧
        0 ≤ blueOf p1 ∧ blueOf p1 ≤ 255) ∧
      (0 ≤ redOf p2 ∧ redOf p2 ≤ 255 ∧ 0 ≤ greenOf p2 ∧ greenOf p2 ≤ 255 ∧
        0 ≤ blueOf p2 ∧ blueOf p2 ≤ 255) := by
  have h1 := channel_bounds p1
  have h2 := channel_bounds p2
  refine ⟨?_, ?_, ⟨h1.1.1, h1.1.2, h1.2.1.1, h1.2.1.2, h1.2.2.1, h1.2.2.2⟩,
    ⟨h2.1.1, h2.1.2, h2.2.1.1, h2.2.1.2, h2.2.2.1, h2.2.2.2⟩⟩
  · rw [colourDifference_eq, chebyshev, max_assoc]
  · rw [colourDifference_eq, max_assoc]

/-- C2: for every valid grid and threshold, edge detection returns a grid with
the rows and columns of the input; an in-bounds cell of the output is `BLACK`
when some in-bounds cell of its clipped 3x3 neighbourhood differs from it by
more than the threshold and `WHITE` otherwise, so every output cell is `BLACK`
or `WHITE`.  The 2x2 grid `[[BLACK, WHITE], [WHITE, WHITE]]` with threshold 50
yields four `BLACK` cells. -/
theorem applyEdgeDetection_spec (g : Grid) (t : Int) (hv : g.valid) :
    (∃ res, applyEdgeDetection g t = some res ∧
      res.numRows = g.numRows ∧ res.numCols = g.numCols ∧
      ∀ r c : Int, g.inBounds r c = true →
        (HasContrast g r c t → res.get r c = some BLACK) ∧
        (¬ HasContrast g r c t → res.get r c = some WHITE) ∧
        (res.get r c = some BLACK ∨ res.get r c = some WHITE)) ∧
    applyEdgeDetection ⟨2, 2, [BLACK, WHITE, WHITE, WHITE]⟩ 50
      = some ⟨2, 2, [BLACK, BLACK, BLACK, BLACK]⟩ := by
  refine ⟨?_, by decide⟩
  obtain ⟨res, hres, hshape, hcells⟩ := applyEdgeDetection_cells g t hv.1
  refine ⟨res, hres, hshape.1, hshape.2.1, fun r c hb => ?_⟩
  have hrc := (g.inBounds_iff r c).mp hb
  obtain ⟨b, hb1, hget⟩ := hcells r.toNat c.toNat (by omega) (by omega)
  have hr : ((r.toNat : Nat) : Int) = r := by omega
  have hc : ((c.toNat : Nat) : Int) = c := by omega
  rw [hr, hc] at hb1 hget
  obtain ⟨b2, hb2, hiff⟩ := isEdge_spec g hv.1 r c t hb
  rw [hb1] at hb2
  cases hb2
  cases b with
  | true =>
    have hc2 : HasContrast g r c t := hiff.mp rfl
    exact ⟨fun _ => hget, fun hn => absurd hc2 hn, Or.inl hget⟩
  | false =>
    have hc2 : ¬ HasContrast g r c t := fun h => by
      have := hiff.mpr h
      cases this
    exact ⟨fun h => absurd h hc2, fun _ => hget, Or.inr hget⟩

/-- Instance of C2 at the 2x2 grid of the spec's scenario. -/
theorem applyEdgeDetection_spec_witness :
    (Grid.mk 2 2 [BLACK, WHITE, WHITE, WHITE]).valid ∧
    ((∃ res, applyEdgeDetection ⟨2, 2, [BLACK, WHITE, WHITE, WHITE]⟩ 50 = some res ∧
      res.numRows = 2 ∧ res.numCols = 2 ∧
      ∀ r c : Int, (Grid.mk 2 2 [BLACK, WHITE, WHITE, WHITE]).inBounds r c = true →
        (HasContrast ⟨2, 2, [BLACK, WHITE, WHITE, WHITE]⟩ r c 50 → res.get r c = some BLACK) ∧
        (¬ HasContrast ⟨2, 2, [BLACK, WHITE, WHITE, WHITE]⟩ r c 50 →
          res.get r c = some WHITE) ∧
        (res.get r c = some BLACK ∨ res.get r c = some WHITE)) ∧
    applyEdgeDetection ⟨2, 2, [BLACK, WHITE, WHITE, WHITE]⟩ 50
      = some ⟨2, 2, [BLACK, BLACK, BLACK, BLACK]⟩) :=
  ⟨by decide, applyEdgeDetection_spec ⟨2, 2, [BLACK, WHITE, WHITE, WHITE]⟩ 50 (by decide)⟩

/-- C3: for every valid base grid and sticker grid, `int` offsets and
tolerance, the green-screen overlay returns (without error) a grid with the
dimensions of `base`; an in-bounds base cell `(r, c)` takes the sticker pixel at
`(r - offsetRow, c - offsetCol)` when that is an in-bounds sticker cell whose
`colourDifference` to `GREEN` exceeds the tolerance, and keeps the base pixel
otherwise.  Base 2x2 all `BLACK`, sticker 1x1 `[0xFF0000]`, offset `(0, 1)`,
tolerance 10 yields `[[BLACK, RED], [BLACK, BLACK]]`. -/
theorem applyGreenScreen_spec (base sticker : Grid) (offsetRow offsetCol tolerance : Int)
    (hbase : base.valid) (hst : sticker.valid) (hR : isInt32 offsetRow)
    (hC : isInt32 offsetCol) :
    (∃ res, applyGreenScreen base sticker offsetRow offsetCol tolerance = some res ∧
      res.numRows = base.numRows ∧ res.numCols = base.numCols ∧
      ∀ r c : Int, base.inBounds r c = true →
        (∀ p, sticker.inBounds (r - offsetRow) (c - offsetCol) = true →
          sticker.get (r - offsetRow) (c - offsetCol) = some p →
          colourDifference p GREEN > tolerance → res.get r c = some p) ∧
        ((¬ ∃ p, sticker.inBounds (r - offsetRow) (c - offsetCol) = true ∧
            sticker.get (r - offsetRow) (c - offsetCol) = some p ∧
            colourDifference p GREEN > tolerance) → res.get r c = base.get r c)) ∧
    applyGreenScreen ⟨2, 2, [BLACK, BLACK, BLACK, BLACK]⟩ ⟨1, 1, [0xFF0000]⟩ 0 1 10
      = some ⟨2, 2, [BLACK, 0xFF0000, BLACK, BLACK]⟩ := by
  refine ⟨?_, by decide⟩
  obtain ⟨res, hres, hshape, hcells⟩ :=
    applyGreenScreen_cells base sticker offsetRow offsetCol tolerance hbase hst hR hC
  refine ⟨res, hres, hshape.1, hshape.2.1, fun r c hb => ⟨?_, ?_⟩⟩
  · intro p hin hg hd
    have hrc := (sticker.inBounds_iff _ _).mp hin
    exact (hcells r c hb).1 p ⟨hin, Or.inl hrc.2.1, hg, hd⟩
  · intro hno
    apply (hcells r c hb).2
    rintro ⟨p, hin, _, hg, hd⟩
    exact hno ⟨p, hin, hg, hd⟩

/-- Instance of C3 at the spec's scenario, a 1x1 red sticker placed at `(0, 1)`. -/
theorem applyGreenScreen_spec_witness :
    (Grid.mk 2 2 [BLACK, BLACK, BLACK, BLACK]).valid ∧ (Grid.mk 1 1 [0xFF0000]).valid ∧
    isInt32 0 ∧ isInt32 1 ∧
    ((∃ res, applyGreenScreen ⟨2, 2, [BLACK, BLACK, BLACK, BLACK]⟩ ⟨1, 1, [0xFF0000]⟩ 0 1 10
        = some res ∧
      res.numRows = 2 ∧ res.numCols = 2 ∧
      ∀ r c : Int, (Grid.mk 2 2 [BLACK, BLACK, BLACK, BLACK]).inBounds r c = true →
        (∀ p, (Grid.mk 1 1 [0xFF0000]).inBounds (r - 0) (c - 1) = true →
          (Grid.mk 1 1 [0xFF0000]).get (r - 0) (c - 1) = some p →
          colourDifference p GREEN > 10 → res.get r c = some p) ∧
        ((¬ ∃ p, (Grid.mk 1 1 [0xFF0000]).inBounds (r - 0) (c - 1) = true ∧
            (Grid.mk 1 1 [0xFF0000]).get (r - 0) (c - 1) = some p ∧
            colourDifference p GREEN > 10) →
          res.get r c = (Grid.mk 2 2 [BLACK, BLACK, BLACK, BLACK]).get r c)) ∧
    applyGreenScreen ⟨2, 2, [BLACK, BLACK, BLACK, BLACK]⟩ ⟨1, 1, [0xFF0000]⟩ 0 1 10
      = some ⟨2, 2, [BLACK, 0xFF0000, BLACK, BLACK]⟩) :=
  ⟨by decide, by decide, by decide, by decide,
    applyGreenScreen_spec ⟨2, 2, [BLACK, BLACK, BLACK, BLACK]⟩ ⟨1, 1, [0xFF0000]⟩ 0 1 10
      (by decide) (by decide) (by decide) (by decide)⟩

/-- C4 (scatter closure): for every grid, radius of at least 1 and random
source whose `randomInteger(low, high)` answers within `[low, high]`, every
cell `(r, c)` of a grid returned by scatter holds the colour `g[r2][c2]` of an
in-bounds cell of the input grid with `|r2 - r| <= radius` and
`|c2 - c| <= radius`; the output has the dimensions of the input. -/
theorem applyScatter_closure {σ : Type} (randomInteger : σ → Int → Int → Int × σ)
    (g : Grid) (radius : Int) (fuel : Nat) (s : σ) (res : Grid) (s2 : σ)
    (hrnd : InRange randomInteger) (hrad : 1 ≤ radius)
    (hrun : applyScatter randomInteger g radius fuel s = some (res, s2)) :
    res.numRows = g.numRows ∧ res.numCols = g.numCols ∧
      ∀ r c : Int, g.inBounds r c = true →
        ∃ r2 c2 v, g.inBounds r2 c2 = true ∧ |r2 - r| ≤ radius ∧ |c2 - c| ≤ radius ∧
          g.get r2 c2 = some v ∧ res.get r c = some v := by
  obtain ⟨hshape, hcells⟩ :=
    applyScatter_cells randomInteger hrnd g radius (by omega) fuel s (res, s2) hrun
  refine ⟨hshape.1, hshape.2.1, fun r c hb => ?_⟩
  have hrc := (g.inBounds_iff r c).mp hb
  have h := hcells r.toNat c.toNat (by omega) (by omega)
  have hr : ((r.toNat : Nat) : Int) = r := by omega
  have hc : ((c.toNat : Nat) : Int) = c := by omega
  rw [hr, hc] at h
  exact h

/-- Instance of C4: a run of scatter over a 2x2 grid with radius 1 against the cycling source. -/
theorem applyScatter_closure_witness :
    InRange cycleSource ∧ (1 : Int) ≤ 1 ∧
    applyScatter cycleSource ⟨2, 2, [1, 2, 3, 4]⟩ 1 5 0 = some (⟨2, 2, [2, 3, 4, 2]⟩, 14) ∧
    ((Grid.mk 2 2 [2, 3, 4, 2]).numRows = (Grid.mk 2 2 [1, 2, 3, 4]).numRows ∧
      (Grid.mk 2 2 [2, 3, 4, 2]).numCols = (Grid.mk 2 2 [1, 2, 3, 4]).numCols ∧
      ∀ r c : Int, (Grid.mk 2 2 [1, 2, 3, 4]).inBounds r c = true →
        ∃ r2 c2 v, (Grid.mk 2 2 [1, 2, 3, 4]).inBounds r2 c2 = true ∧
          |r2 - r| ≤ 1 ∧ |c2 - c| ≤ 1 ∧
          (Grid.mk 2 2 [1, 2, 3, 4]).get r2 c2 = some v ∧
          (Grid.mk 2 2 [2, 3, 4, 2]).get r c = some v) :=
  ⟨cycleSource_inRange, by decide, by decide,
    applyScatter_closure cycleSource ⟨2, 2, [1, 2, 3, 4]⟩ 1 5 0 ⟨2, 2, [2, 3, 4, 2]⟩ 14
      cycleSource_inRange (by decide) (by decide)⟩

/-- C5, as stated, fails: the source that always answers `low` keeps the
contract of `randomInteger`, yet at cell `(0, 0)` of a valid 1x1 grid with
radius 1 every pass draws `(-1, -1)`, so `getRandomScatterPixel` returns
nothing however much fuel it is given, and neither does `applyScatter`. -/
theorem getRandomScatterPixel_not_total :
    InRange lowSource ∧ (Grid.mk 1 1 [BLACK]).valid ∧
      (Grid.mk 1 1 [BLACK]).inBounds 0 0 = true ∧ (1 : Int) ≤ 1 ∧
      (∀ k, drawPair lowSource 0 0 1 (stateAfter lowSource 0 0 1 k ()) = ((-1, -1), ())) ∧
      (∀ fuel, getRandomScatterPixel lowSource ⟨1, 1, [BLACK]⟩ 0 0 1 fuel () = none) ∧
      (∀ fuel, applyScatter lowSource ⟨1, 1, [BLACK]⟩ 1 fuel () = none) := by
  refine ⟨lowSource_inRange, by decide, by decide, by decide, fun _ => rfl,
    fun fuel => getRandomScatterPixel_lowSource _ 1 (by decide) fuel, fun fuel => ?_⟩
  have h := getRandomScatterPixel_lowSource ⟨1, 1, [BLACK]⟩ 1 (by decide) fuel
  simp only [applyScatter, forRange, Nat.cast_zero, h]

/-- C5, amended: for every valid grid, in-bounds cell `(row, col)` and radius
of at least 1, the centre `(row, col)` lies inside the draw window and inside
the grid, so an accepting draw exists; whenever pass `k` of the loop is the
first to draw an in-bounds pair, `getRandomScatterPixel` run with more than `k`
passes of fuel returns the colour of that pair; and when the source draws an
in-bounds pair after finitely many passes from every state and for every cell,
some amount of fuel lets scatter return a grid of the input's dimensions with
every cell filled. -/
theorem scatter_total_when_accepting {σ : Type}
    (randomInteger : σ → Int → Int → Int × σ) (g : Grid) (row col radius : Int)
    (hv : g.valid) (hb : g.inBounds row col = true) (hrad : 1 ≤ radius) :
    (row - radius ≤ row ∧ row ≤ row + radius ∧ col - radius ≤ col ∧ col ≤ col + radius ∧
      g.inBounds row col = true) ∧
    (∀ (s : σ) (k : Nat),
      (∀ i, i < k → g.inBounds
        (drawPair randomInteger row col radius (stateAfter randomInteger row col radius i s)).1.1
        (drawPair randomInteger row col radius (stateAfter randomInteger row col radius i s)).1.2
          = false) →
      g.inBounds
        (drawPair randomInteger row col radius (stateAfter randomInteger row col radius k s)).1.1
        (drawPair randomInteger row col radius (stateAfter randomInteger row col radius k s)).1.2
          = true →
      ∃ v, g.get
          (drawPair randomInteger row col radius (stateAfter randomInteger row col radius k s)).1.1
          (drawPair randomInteger row col radius (stateAfter randomInteger row col radius k s)).1.2
            = some v ∧
        ∀ fuel, k < fuel → getRandomScatterPixel randomInteger g row col radius fuel s
          = some (v, (drawPair randomInteger row col radius
              (stateAfter randomInteger row col radius k s)).2)) ∧
    (EventuallyAccepts randomInteger g radius →
      ∀ s : σ, ∃ fuel res s2, applyScatter randomInteger g radius fuel s = some (res, s2) ∧
        res.numRows = g.numRows ∧ res.numCols = g.numCols ∧
        ∀ r c : Int, g.inBounds r c = true → ∃ v, res.get r c = some v) := by
  refine ⟨⟨by omega, by omega, by omega, by omega, hb⟩, ?_, ?_⟩
  · intro s k hrej hacc
    exact getRandomScatterPixel_first randomInteger g hv.1 row col radius k s hrej hacc
  · intro hacc s
    obtain ⟨fuel, out, hrun, hshape⟩ := applyScatter_total randomInteger g hv.1 radius hacc s
    refine ⟨fuel, out.1, out.2, hrun, hshape.1, hshape.2.1, fun r c hrc => ?_⟩
    apply out.1.get_isSome r c
    · rw [hshape.2.2, hshape.1, hshape.2.1, Grid.new_length]; rfl
    · rw [Grid.sameShape_inBounds hshape]
      exact hrc

/-- Instance of the amended C5: against the cycling source the third pass at cell `(0, 0)` is the first to accept, and against the source that answers the middle of the interval scatter fills the grid. -/
theorem scatter_total_when_accepting_witness :
    (Grid.mk 2 2 [1, 2, 3, 4]).valid ∧ (Grid.mk 2 2 [1, 2, 3, 4]).inBounds 0 0 = true ∧
    (1 : Int) ≤ 1 ∧
    (∀ fuel, 2 < fuel →
      getRandomScatterPixel cycleSource ⟨2, 2, [1, 2, 3, 4]⟩ 0 0 1 fuel 0 = some (2, 6)) ∧
    (∀ s : Unit, ∃ fuel res s2, applyScatter midSource ⟨2, 2, [1, 2, 3, 4]⟩ 1 fuel s
        = some (res, s2) ∧
      res.numRows = 2 ∧ res.numCols = 2 ∧
      ∀ r c : Int, (Grid.mk 2 2 [1, 2, 3, 4]).inBounds r c = true →
        ∃ v, res.get r c = some v) := by
  refine ⟨by decide, by decide, by decide, ?_, ?_⟩
  · obtain ⟨v, hv, hrun⟩ :=
      (scatter_total_when_accepting cycleSource ⟨2, 2, [1, 2, 3, 4]⟩ 0 0 1
        (by decide) (by decide) (by decide)).2.1 0 2 (by decide) (by decide)
    have hv2 : v = 2 := by
      have h : some (2 : Int) = some v := hv
      cases h
      rfl
    rw [hv2] at hrun
    exact hrun
  · exact (scatter_total_when_accepting midSource ⟨2, 2, [1, 2, 3, 4]⟩ 0 0 1
      (by decide) (by decide) (by decide)).2.2 (midSource_accepts _ 1)

/-- C6: for every base grid, valid sticker grid, offsets and tolerance, when
every sticker cell `s` has `colourDifference(s, GREEN) <= tolerance` (the
boundary `difference == tolerance` included), the green-screen result is the
base grid, cell for cell: no pixel is written. -/
theorem applyGreenScreen_transparent (base sticker : Grid)
    (offsetRow offsetCol tolerance : Int) (hst : sticker.valid)
    (htr : ∀ s ∈ sticker.cells, colourDifference s GREEN ≤ tolerance) :
    applyGreenScreen base sticker offsetRow offsetCol tolerance = some base ∧
      ∀ res, applyGreenScreen base sticker offsetRow offsetCol tolerance = some res →
        ∀ r c : Int, res.get r c = base.get r c := by
  have h := applyGreenScreen_unchanged base sticker offsetRow offsetCol tolerance hst.1 htr
  refine ⟨h, fun res hres r c => ?_⟩
  rw [h] at hres
  cases hres
  rfl

/-- Instance of C6 with a sticker cell at the boundary `difference == tolerance`. -/
theorem applyGreenScreen_transparent_witness :
    (Grid.mk 1 2 [0x0AFF00, GREEN]).valid ∧
    (∀ s ∈ (Grid.mk 1 2 [0x0AFF00, GREEN]).cells, colourDifference s GREEN ≤ 10) ∧
    colourDifference 0x0AFF00 GREEN = 10 ∧
    (applyGreenScreen ⟨2, 2, [1, 2, 3, 4]⟩ ⟨1, 2, [0x0AFF00, GREEN]⟩ 1 0 10
        = some ⟨2, 2, [1, 2, 3, 4]⟩ ∧
      ∀ res, applyGreenScreen ⟨2, 2, [1, 2, 3, 4]⟩ ⟨1, 2, [0x0AFF00, GREEN]⟩ 1 0 10
          = some res →
        ∀ r c : Int, res.get r c = (Grid.mk 2 2 [1, 2, 3, 4]).get r c) :=
  ⟨by decide, by decide, by decide,
    applyGreenScreen_transparent ⟨2, 2, [1, 2, 3, 4]⟩ ⟨1, 2, [0x0AFF00, GREEN]⟩ 1 0 10
      (by decide) (by decide)⟩

/-- C7 (full overlay): for every valid base grid, valid sticker grid of 24-bit
pixels and `int` offsets, with tolerance 0 and no sticker pixel equal to
`GREEN`, every sticker cell `(sr, sc)` whose target
`(offsetRow + sr, offsetCol + sc)` is inside the base overwrites it:
`result[offsetRow + sr][offsetCol + sc] = sticker[sr][sc]`. -/
theorem applyGreenScreen_overlay (base sticker : Grid) (offsetRow offsetCol : Int)
    (hbase : base.valid) (hst : sticker.valid) (hpix : sticker.pixels)
    (hR : isInt32 offsetRow) (hC : isInt32 offsetCol)
    (hkey : ∀ p ∈ sticker.cells, p ≠ GREEN) :
    ∃ res, applyGreenScreen base sticker offsetRow offsetCol 0 = some res ∧
      ∀ sr sc : Int, sticker.inBounds sr sc = true →
        base.inBounds (offsetRow + sr) (offsetCol + sc) = true →
        ∃ p, sticker.get sr sc = some p ∧
          res.get (offsetRow + sr) (offsetCol + sc) = some p := by
  obtain ⟨res, hres, _, hcells⟩ :=
    applyGreenScreen_cells base sticker offsetRow offsetCol 0 hbase hst hR hC
  refine ⟨res, hres, fun sr sc hs hb => ?_⟩
  obtain ⟨p, hp⟩ := sticker.get_isSome sr sc hst.1 hs
  have hmem := sticker.get_mem sr sc p hp
  have hd := colourDifference_green_pos p (hpix p hmem) (hkey p hmem)
  have hr : offsetRow + sr - offsetRow = sr := by omega
  have hc : offsetCol + sc - offsetCol = sc := by omega
  have hsr := (sticker.inBounds_iff sr sc).mp hs
  refine ⟨p, hp, (hcells _ _ hb).1 p ⟨?_, ?_, ?_, hd⟩⟩
  · rw [hr, hc]; exact hs
  · rw [hr]; exact Or.inl hsr.2.1
  · rw [hr, hc]; exact hp

/-- Instance of C7: a 1x2 sticker hanging over the right edge of a 2x2 base. -/
theorem applyGreenScreen_overlay_witness :
    (Grid.mk 2 2 [1, 2, 3, 4]).valid ∧ (Grid.mk 1 2 [0xFF0000, 0x00FE00]).valid ∧
    (Grid.mk 1 2 [0xFF0000, 0x00FE00]).pixels ∧ isInt32 1 ∧ isInt32 1 ∧
    (∀ p ∈ (Grid.mk 1 2 [0xFF0000, 0x00FE00]).cells, p ≠ GREEN) ∧
    (∃ res, applyGreenScreen ⟨2, 2, [1, 2, 3, 4]⟩ ⟨1, 2, [0xFF0000, 0x00FE00]⟩ 1 1 0
        = some res ∧
      ∀ sr sc : Int, (Grid.mk 1 2 [0xFF0000, 0x00FE00]).inBounds sr sc = true →
        (Grid.mk 2 2 [1, 2, 3, 4]).inBounds (1 + sr) (1 + sc) = true →
        ∃ p, (Grid.mk 1 2 [0xFF0000, 0x00FE00]).get sr sc = some p ∧
          res.get (1 + sr) (1 + sc) = some p) :=
  ⟨by decide, by decide, by decide, by decide, by decide, by decide,
    applyGreenScreen_overlay ⟨2, 2, [1, 2, 3, 4]⟩ ⟨1, 2, [0xFF0000, 0x00FE00]⟩ 1 1
      (by decide) (by decide) (by decide) (by decide) (by decide) (by decide)⟩

/-- C8 (diff mismatch error): for every pair of grids whose rows or columns
differ, the image comparison fails with the `dimensionMismatch` error; it
returns no count at all, in particular not the count of differing cells over
the overlap of the two grids. -/
theorem compareImage_dimensionMismatch (a b : Grid)
    (hdim : a.numRows ≠ b.numRows ∨ a.numCols ≠ b.numCols) :
    compareImage a b = Except.error DiffError.dimensionMismatch ∧
      (∀ out, compareImage a b ≠ Except.ok out) ∧
      ∀ message, compareImage a b ≠ Except.ok (overlapDiffCount a b, message) := by
  have hne : ¬ (a.numRows = b.numRows ∧ a.numCols = b.numCols) := by
    rintro ⟨h1, h2⟩
    rcases hdim with h | h
    · exact h h1
    · exact h h2
  have herr : compareImage a b = Except.error DiffError.dimensionMismatch := by
    simp only [compareImage, countDiffPixels, if_neg hne]
  refine ⟨herr, fun out h => ?_, fun message h => ?_⟩
  · rw [herr] at h; cases h
  · rw [herr] at h; cases h

/-- Instance of C8: a 2x2 grid against a 1x2 grid that agrees with it on the overlap. -/
theorem compareImage_dimensionMismatch_witness :
    ((Grid.mk 2 2 [1, 2, 3, 4]).numRows ≠ (Grid.mk 1 2 [1, 2]).numRows ∨
      (Grid.mk 2 2 [1, 2, 3, 4]).numCols ≠ (Grid.mk 1 2 [1, 2]).numCols) ∧
    overlapDiffCount ⟨2, 2, [1, 2, 3, 4]⟩ ⟨1, 2, [1, 2]⟩ = 0 ∧
    (compareImage ⟨2, 2, [1, 2, 3, 4]⟩ ⟨1, 2, [1, 2]⟩
        = Except.error DiffError.dimensionMismatch ∧
      (∀ out, compareImage ⟨2, 2, [1, 2, 3, 4]⟩ ⟨1, 2, [1, 2]⟩ ≠ Except.ok out) ∧
      ∀ message, compareImage ⟨2, 2, [1, 2, 3, 4]⟩ ⟨1, 2, [1, 2]⟩
        ≠ Except.ok (overlapDiffCount ⟨2, 2, [1, 2, 3, 4]⟩ ⟨1, 2, [1, 2]⟩, message)) :=
  ⟨by decide, by decide,
    compareImage_dimensionMismatch ⟨2, 2, [1, 2, 3, 4]⟩ ⟨1, 2, [1, 2]⟩ (by decide)⟩

/-- C9: the comparison of the centre with itself has no observable effect: for
every valid grid, in-bounds cell `(row, col)` and threshold `t >= 0`, `isEdge`
returns a value and it is the value of the variant that scans the same clipped
3x3 neighbourhood but skips `(i, j) = (row, col)`, since
`colourDifference(p, p) = 0` for every pixel `p`. -/
theorem isEdge_centre_redundant (g : Grid) (row col t : Int) (hv : g.valid)
    (hb : g.inBounds row col = true) (ht : 0 ≤ t) :
    isEdge g row col t = isEdgeSkipCentre g row col t ∧
      (∃ b, isEdge g row col t = some b) ∧ ∀ p, colourDifference p p = 0 := by
  obtain ⟨p, hp⟩ := g.get_isSome row col hv.1 hb
  obtain ⟨b, hbe, _⟩ := isEdge_spec g hv.1 row col t hb
  refine ⟨?_, ⟨b, hbe⟩, colourDifference_self⟩
  simp only [isEdge, isEdgeSkipCentre, hp, isEdgeSkipCentreRows_eq g p row col t ht hp]

/-- Instance of C9 at a cell of the spec's 2x2 scenario. -/
theorem isEdge_centre_redundant_witness :
    (Grid.mk 2 2 [BLACK, WHITE, WHITE, WHITE]).valid ∧
    (Grid.mk 2 2 [BLACK, WHITE, WHITE, WHITE]).inBounds 1 1 = true ∧ (0 : Int) ≤ 50 ∧
    (isEdge ⟨2, 2, [BLACK, WHITE, WHITE, WHITE]⟩ 1 1 50
        = isEdgeSkipCentre ⟨2, 2, [BLACK, WHITE, WHITE, WHITE]⟩ 1 1 50 ∧
      (∃ b, isEdge ⟨2, 2, [BLACK, WHITE, WHITE, WHITE]⟩ 1 1 50 = some b) ∧
      ∀ p, colourDifference p p = 0) :=
  ⟨by decide, by decide, by decide,
    isEdge_centre_redundant ⟨2, 2, [BLACK, WHITE, WHITE, WHITE]⟩ 1 1 50
      (by decide) (by decide) (by decide)⟩

/-- An edge cell has a different adjacent in-bounds cell that is an edge too. -/
theorem isEdge_neighbour (g : Grid) (row col t : Int)
    (hlen : g.cells.length = g.numRows * g.numCols)
    (hb : g.inBounds row col = true) (ht : 0 ≤ t)
    (hedge : isEdge g row col t = some true) :
    ∃ i j, (i ≠ row ∨ j ≠ col) ∧ g.inBounds i j = true ∧ |i - row| ≤ 1 ∧ |j - col| ≤ 1 ∧
      isEdge g i j t = some true := by
  obtain ⟨b, hbe, hiff⟩ := isEdge_spec g hlen row col t hb
  rw [hedge] at hbe
  cases hbe
  obtain ⟨i, j, p, q, hi, hj, hin, hp, hq, hd⟩ := hiff.mp rfl
  have hne : i ≠ row ∨ j ≠ col := by
    by_contra hcon
    have hi2 : i = row := by omega
    have hj2 : j = col := by omega
    subst hi2
    subst hj2
    rw [hp] at hq
    cases hq
    rw [colourDifference_self] at hd
    omega
  obtain ⟨b2, hb2, hiff2⟩ := isEdge_spec g hlen i j t hin
  have hcon2 : HasContrast g i j t :=
    ⟨row, col, q, p, by rw [abs_sub_comm]; exact hi, by rw [abs_sub_comm]; exact hj, hb, hq, hp,
      by rw [colourDifference_comm]; exact hd⟩
  have hb2t : b2 = true := hiff2.mpr hcon2
  subst hb2t
  exact ⟨i, j, hne, hin, hi, hj, hb2⟩

/-- An in-bounds cell of the output of edge detection is `BLACK` exactly when
`isEdge` holds there. -/
theorem applyEdgeDetection_black_iff (g : Grid) (t : Int)
    (hlen : g.cells.length = g.numRows * g.numCols) (res : Grid)
    (hres : applyEdgeDetection g t = some res) (row col : Int)
    (hb : g.inBounds row col = true) :
    res.get row col = some BLACK ↔ isEdge g row col t = some true := by
  obtain ⟨res2, hres2, _, hcells⟩ := applyEdgeDetection_cells g t hlen
  rw [hres] at hres2
  cases hres2
  have hrc := (g.inBounds_iff row col).mp hb
  obtain ⟨b, hbe, hget⟩ := hcells row.toNat col.toNat (by omega) (by omega)
  have e1 : ((row.toNat : Nat) : Int) = row := by omega
  have e2 : ((col.toNat : Nat) : Int) = col := by omega
  rw [e1, e2] at hbe hget
  rw [hbe, hget]
  cases b with
  | true => simp
  | false => simp [BLACK, WHITE]

/-- C10: edge pixels never occur in isolation: for every valid grid and
threshold `t >= 0`, when `isEdge` holds at an in-bounds cell `(row, col)` it
also holds at a different in-bounds cell `(i, j)` with `|i - row| <= 1` and
`|j - col| <= 1`; and edge detection returns a grid in which every `BLACK`
in-bounds cell has a different, adjacent, in-bounds cell that is `BLACK`. -/
theorem isEdge_not_isolated (g : Grid) (t : Int) (hv : g.valid) (ht : 0 ≤ t) :
    (∀ row col : Int, g.inBounds row col = true → isEdge g row col t = some true →
      ∃ i j, (i ≠ row ∨ j ≠ col) ∧ g.inBounds i j = true ∧ |i - row| ≤ 1 ∧ |j - col| ≤ 1 ∧
        isEdge g i j t = some true ∧
        ∃ res, applyEdgeDetection g t = some res ∧ res.get row col = some BLACK ∧
          res.get i j = some BLACK) ∧
    ∃ res, applyEdgeDetection g t = some res ∧
      ∀ row col : Int, g.inBounds row col = true → res.get row col = some BLACK →
        ∃ i j, (i ≠ row ∨ j ≠ col) ∧ g.inBounds i j = true ∧ |i - row| ≤ 1 ∧
          |j - col| ≤ 1 ∧ res.get i j = some BLACK := by
  obtain ⟨res, hres, _, _⟩ := applyEdgeDetection_cells g t hv.1
  constructor
  · intro row col hb hedge
    obtain ⟨i, j, hne, hin, hi, hj, he2⟩ := isEdge_neighbour g row col t hv.1 hb ht hedge
    exact ⟨i, j, hne, hin, hi, hj, he2, res, hres,
      (applyEdgeDetection_black_iff g t hv.1 res hres row col hb).mpr hedge,
      (applyEdgeDetection_black_iff g t hv.1 res hres i j hin).mpr he2⟩
  · refine ⟨res, hres, fun row col hb hblack => ?_⟩
    have hedge := (applyEdgeDetection_black_iff g t hv.1 res hres row col hb).mp hblack
    obtain ⟨i, j, hne, hin, hi, hj, he2⟩ := isEdge_neighbour g row col t hv.1 hb ht hedge
    exact ⟨i, j, hne, hin, hi, hj,
      (applyEdgeDetection_black_iff g t hv.1 res hres i j hin).mpr he2⟩

/-- Instance of C10 at the spec's 2x2 scenario: the corner `(0, 0)` is an edge,
and every `BLACK` cell of the output has an adjacent `BLACK` cell. -/
theorem isEdge_not_isolated_witness :
    (Grid.mk 2 2 [BLACK, WHITE, WHITE, WHITE]).valid ∧ (0 : Int) ≤ 50 ∧
    (Grid.mk 2 2 [BLACK, WHITE, WHITE, WHITE]).inBounds 0 0 = true ∧
    isEdge ⟨2, 2, [BLACK, WHITE, WHITE, WHITE]⟩ 0 0 50 = some true ∧
    applyEdgeDetection ⟨2, 2, [BLACK, WHITE, WHITE, WHITE]⟩ 50
      = some ⟨2, 2, [BLACK, BLACK, BLACK, BLACK]⟩ ∧
    ((∀ row col : Int, (Grid.mk 2 2 [BLACK, WHITE, WHITE, WHITE]).inBounds row col = true →
      isEdge ⟨2, 2, [BLACK, WHITE, WHITE, WHITE]⟩ row col 50 = some true →
      ∃ i j, (i ≠ row ∨ j ≠ col) ∧
        (Grid.mk 2 2 [BLACK, WHITE, WHITE, WHITE]).inBounds i j = true ∧
        |i - row| ≤ 1 ∧ |j - col| ≤ 1 ∧
        isEdge ⟨2, 2, [BLACK, WHITE, WHITE, WHITE]⟩ i j 50 = some true ∧
        ∃ res, applyEdgeDetection ⟨2, 2, [BLACK, WHITE, WHITE, WHITE]⟩ 50 = some res ∧
          res.get row col = some BLACK ∧ res.get i j = some BLACK) ∧
    ∃ res, applyEdgeDetection ⟨2, 2, [BLACK, WHITE, WHITE, WHITE]⟩ 50 = some res ∧
      ∀ row col : Int, (Grid.mk 2 2 [BLACK, WHITE, WHITE, WHITE]).inBounds row col = true →
        res.get row col = some BLACK →
        ∃ i j, (i ≠ row ∨ j ≠ col) ∧
          (Grid.mk 2 2 [BLACK, WHITE, WHITE, WHITE]).inBounds i j = true ∧
          |i - row| ≤ 1 ∧ |j - col| ≤ 1 ∧ res.get i j = some BLACK) :=
  ⟨by decide, by decide, by decide, by decide, by decide,
    isEdge_not_isolated ⟨2, 2, [BLACK, WHITE, WHITE, WHITE]⟩ 50 (by decide) (by decide)⟩

end Fauxtoshop
